import Mathlib

/-!
Verification development for the Aura assistant entity store (`db.py`, with the
`move_entity` intent handler of `main.py`).

Modelling conventions:
* SQLite rows of the `entities` table become the `Entity` structure; the table
  is a list in rowid order, with `id` and `created_at` both modelled by a
  strictly increasing counter (AUTOINCREMENT ids, `CURRENT_TIMESTAMP` defaults).
* The JSON `meta` column only ever holds the keys written or read by the code
  (`deleted`, `status`, `archived`, `archived_from`, `done`, `completed_at`,
  `city`, `profession`), so it is modelled as a record.  A key that is absent
  is modelled by the field's default (`false` / `none`); SQL reads of the form
  `json_extract(meta,'$.k') IS NOT TRUE` / `= true` and Python truthiness tests
  cannot distinguish an absent key from the stored `NULL`/empty dict, so the
  quotient is faithful.
* SQLite's `LOWER` folds ASCII only (`sqlLower`); Python's `str.lower` also
  folds the Cyrillic range used by the data (`pyLower`).
* Scores are exact rationals (`mkRat`), with the literal thresholds 0.75 and
  0.85 as 3/4 and 17/20.
-/

namespace Aura

/-- ASCII-only lowercasing, as performed by SQLite's `LOWER()`. -/
def sqlLowerChar (c : Char) : Char :=
  if 'A' ≤ c ∧ c ≤ 'Z' then Char.ofNat (c.toNat + 32) else c

/-- Lowercasing as performed by Python's `str.lower` on the alphabets the data
uses: ASCII plus the Cyrillic uppercase range `А`..`Я` and `Ё`. -/
def pyLowerChar (c : Char) : Char :=
  if 'A' ≤ c ∧ c ≤ 'Z' then Char.ofNat (c.toNat + 32)
  else if 'А' ≤ c ∧ c ≤ 'Я' then Char.ofNat (c.toNat + 32)
  else if c = 'Ё' then 'ё'
  else c

def sqlLower (s : String) : String := ⟨s.toList.map sqlLowerChar⟩

def pyLower (s : String) : String := ⟨s.toList.map pyLowerChar⟩

/-- The character class `[0-9a-zA-Zа-яА-ЯёЁ]` of the tokenizing regexes. -/
def isTokenChar (c : Char) : Bool :=
  decide (('0' ≤ c ∧ c ≤ '9') ∨ ('a' ≤ c ∧ c ≤ 'z') ∨ ('A' ≤ c ∧ c ≤ 'Z') ∨
    ('а' ≤ c ∧ c ≤ 'я') ∨ ('А' ≤ c ∧ c ≤ 'Я') ∨ c = 'ё' ∨ c = 'Ё')

/-- Splitting a string at maximal runs of non-token characters
(`re.split(r"[^0-9a-zA-Zа-яА-ЯёЁ]+", text)` with empty parts dropped). -/
def splitTokensAux : List Char → List Char → List String
  | [], cur => if cur.isEmpty then [] else [⟨cur.reverse⟩]
  | c :: cs, cur =>
    if isTokenChar c then splitTokensAux cs (c :: cur)
    else if cur.isEmpty then splitTokensAux cs []
    else ⟨cur.reverse⟩ :: splitTokensAux cs []

def splitTokens (cs : List Char) : List String := splitTokensAux cs []

/-- `_TOKEN_STOPWORDS` of `db.py`. -/
def tokenStopwords : List String :=
  ["и", "да", "нет", "куплены", "куплено", "куплена", "куплен",
   "готово", "готовы", "готов", "выполнено", "выполнены", "выполнен",
   "сделано", "сделаны", "сделан"]

/-- `_SEMANTIC_STOPWORDS = _TOKEN_STOPWORDS | {...}`. -/
def semanticStopwords : List String :=
  tokenStopwords ++
  ["во", "в", "на", "по", "за", "из", "у", "к", "со", "от", "до",
   "для", "это", "эта", "этот", "там"]

/-- `_SEMANTIC_REPLACEMENTS` of `db.py`. -/
def semanticReplacements : List (String × String) :=
  [("оплатить", "платить"), ("заплатить", "платить"), ("оплата", "платить"),
   ("платеж", "платить"), ("квитанция", "платить"),
   ("покупку", "покуп"), ("покупка", "покуп"), ("покупки", "покуп"),
   ("купить", "покуп"),
   ("электричество", "свет"), ("электричества", "свет"),
   ("электроэнергия", "свет"), ("электроэнергию", "свет"), ("свет", "свет")]

/-- `_SEMANTIC_SUFFIXES` of `db.py`, in tuple order. -/
def semanticSuffixes : List String :=
  ["иями", "ями", "ами", "иях", "ях", "ев", "ов", "его", "ого", "ему",
   "ому", "ыми", "ими"]

def isPrefixL : List Char → List Char → Bool
  | [], _ => true
  | _ :: _, [] => false
  | a :: as, b :: bs => a == b && isPrefixL as bs

/-- `needle in hay` for Python strings. -/
def isSubstrL (needle hay : List Char) : Bool :=
  isPrefixL needle hay ||
    match hay with
    | [] => false
    | _ :: t => isSubstrL needle t

def endsWithL (s suffixChars : List Char) : Bool :=
  isPrefixL suffixChars.reverse s.reverse

/-- `_tokenize` of `db.py`. -/
def _tokenize (text : String) : List String :=
  (splitTokens (pyLower text).toList).filter (fun p => !(tokenStopwords.contains p))

/-- `_normalize_semantic_token` of `db.py`. -/
def _normalize_semantic_token (token : String) : String :=
  let base := (semanticReplacements.lookup token).getD token
  let base :=
    if base.length > 4 then
      match semanticSuffixes.find?
          (fun suf => endsWithL base.toList suf.toList &&
            decide (base.length - suf.length ≥ 4)) with
      | some suf => ⟨base.toList.take (base.length - suf.length)⟩
      | none => base
    else base
  if base.length > 4 &&
      ['и', 'ы', 'а', 'я', 'е', 'ю', 'ь', 'й'].contains (base.toList.getLastD ' ') then
    ⟨base.toList.dropLast⟩
  else base

/-- `_semantic_tokenize` of `db.py`: lowercase, map non-token characters to
spaces, fold `ё` to `е`, split, drop stopwords, reduce each token. -/
def _semantic_tokenize (text : String) : List String :=
  let cs := (pyLower text).toList.map (fun c => if c == 'ё' then 'е' else c)
  (splitTokens cs).foldr
    (fun token acc =>
      if semanticStopwords.contains token then acc
      else
        let reduced := _normalize_semantic_token token
        if reduced ≠ "" && !(semanticStopwords.contains reduced) then
          reduced :: acc
        else acc)
    []

/-- `semantic_similarity` of `db.py`: Jaccard index of the semantic token
sets, `0` when the union is empty. -/
def semantic_similarity (a b : String) : ℚ :=
  let ta := (_semantic_tokenize a).toFinset
  let tb := (_semantic_tokenize b).toFinset
  if (ta ∪ tb).card = 0 then 0
  else mkRat ((ta ∩ tb).card : Int) (ta ∪ tb).card

/-- The Jaccard index exactly as the spec words it: `|A∩B| / |A∪B|`, `0` if
both sets are empty.  Stated with `/` on ℚ for comparison with
`semantic_similarity` (the refinement claim C6). -/
def jaccardIndex (A B : Finset String) : ℚ :=
  if A ∪ B = ∅ then 0 else ((A ∩ B).card : ℚ) / ((A ∪ B).card : ℚ)

/-- One row step of the Levenshtein dynamic-programming table; `prevTail` and `t` are
walked in lockstep carrying the diagonal and the freshly computed left cell. -/
def levRowAux (c : Char) : List Char → List Nat → Nat → Nat → List Nat
  | tj :: ts, pj :: ps, diag, left =>
    let cur := min (min (left + 1) (pj + 1)) (diag + (if c == tj then 0 else 1))
    cur :: levRowAux c ts ps pj cur
  | _, _, _, _ => []

def levNextRow (c : Char) (t : List Char) (prev : List Nat) : List Nat :=
  match prev with
  | [] => []
  | p0 :: ps => (p0 + 1) :: levRowAux c t ps p0 (p0 + 1)

/-- Unit-cost Levenshtein edit distance (the `Levenshtein.distance` library
function used by `db.py`), computed row by row. -/
def levenshtein (s t : List Char) : Nat :=
  (s.foldl (fun prev c => levNextRow c t prev) (List.range (t.length + 1))).getLastD 0

/-- Python `str.strip()` (whitespace strip), for the whitespace forms that can
occur in the modelled strings. -/
def isSpaceChar (c : Char) : Bool :=
  c == ' ' || c == '\t' || c == '\n' || c == '\r'

def pyStrip (s : String) : String :=
  ⟨((s.toList.dropWhile isSpaceChar).reverse.dropWhile isSpaceChar).reverse⟩

/-- The class kept by `re.sub(r"[^0-9a-zA-Zа-яА-ЯёЁ ]+", " ", ...)`. -/
def isCleanChar (c : Char) : Bool := isTokenChar c || c == ' '

/-- `re.sub(r"[^0-9a-zA-Zа-яА-ЯёЁ ]+", " ", s)`: each maximal run of
characters outside the class becomes a single space. -/
def collapseAux : List Char → Bool → List Char
  | [], _ => []
  | c :: cs, prevBad =>
    if isCleanChar c then c :: collapseAux cs false
    else if prevBad then collapseAux cs true
    else ' ' :: collapseAux cs true

def trimSpaces (cs : List Char) : List Char :=
  ((cs.dropWhile (· == ' ')).reverse.dropWhile (· == ' ')).reverse

/-- `re.sub(r"[^0-9a-zA-Zа-яА-ЯёЁ ]+", " ", pattern).strip()` — the pattern
cleaning shared by the fuzzy operations and `search_tasks`. -/
def cleanPattern (pattern : String) : String :=
  ⟨trimSpaces (collapseAux pattern.toList false)⟩

/-! ## Data model -/

/-- The JSON `meta` column, restricted to the keys the code reads or writes.
An absent key is the default value (see the header comment). -/
structure Meta where
  deleted : Bool := false
  status : Option String := none
  archived : Bool := false
  archivedFrom : Option String := none
  doneFlag : Bool := false
  completedAt : Option Nat := none
  city : Option String := none
  profession : Option String := none
deriving DecidableEq, Repr

/-- A row of the `entities` table (`ENTITIES_DDL`).  `createdAt` mirrors the
`created_at TEXT DEFAULT CURRENT_TIMESTAMP` column as the insertion counter. -/
structure Entity where
  id : Nat
  userId : Nat
  type : String
  title : String
  content : Option String := none
  parentId : Option Nat := none
  createdAt : Nat
  meta : Meta := {}
deriving DecidableEq, Repr

/-- The stored table, in rowid order, plus the next AUTOINCREMENT id. -/
structure DB where
  entities : List Entity := []
  nextId : Nat := 1
deriving DecidableEq, Repr

def DB.empty : DB := {}

/-- Whether inserting `(userId, type, title, parentId)` violates
`UNIQUE(user_id, type, title, parent_id)` against row `e`.  SQLite treats each
`NULL` as distinct, so a `NULL` `parent_id` on either side never conflicts. -/
def rowConflicts (e : Entity) (userId : Nat) (type title : String)
    (parentId : Option Nat) : Bool :=
  e.userId == userId && e.type == type && e.title == title &&
    match e.parentId, parentId with
    | some p, some q => p == q
    | _, _ => false

def uniqueConflict (db : DB) (userId : Nat) (type title : String)
    (parentId : Option Nat) : Bool :=
  db.entities.any (fun e => rowConflicts e userId type title parentId)

/-- A plain `INSERT` that is known not to conflict. -/
def DB.insertRow (db : DB) (userId : Nat) (type title : String)
    (parentId : Option Nat) (meta : Meta) : Nat × DB :=
  (db.nextId,
   { entities := db.entities ++
       [{ id := db.nextId, userId, type, title, parentId,
          createdAt := db.nextId, meta }],
     nextId := db.nextId + 1 })

/-- `INSERT OR REPLACE`: rows conflicting on the unique constraint are
removed, then the new row is inserted with a fresh id. -/
def DB.insertOrReplaceRow (db : DB) (userId : Nat) (type title : String)
    (parentId : Option Nat) (meta : Meta) : Nat × DB :=
  (db.nextId,
   { entities := (db.entities.filter
         (fun e => !(rowConflicts e userId type title parentId))) ++
       [{ id := db.nextId, userId, type, title, parentId,
          createdAt := db.nextId, meta }],
     nextId := db.nextId + 1 })

/-- `UPDATE entities SET meta = ? WHERE id = ?`. -/
def DB.setMeta (db : DB) (i : Nat) (m : Meta) : DB :=
  let es := db.entities.map (fun e => if e.id == i then { e with meta := m } else e)
  { db with entities := es }

/-- `UPDATE entities SET title = ? WHERE id = ?`. -/
def DB.setTitle (db : DB) (i : Nat) (t : String) : DB :=
  let es := db.entities.map (fun e => if e.id == i then { e with title := t } else e)
  { db with entities := es }

/-- `UPDATE entities SET parent_id = ? WHERE id = ?`. -/
def DB.setParent (db : DB) (i : Nat) (p : Option Nat) : DB :=
  let es := db.entities.map (fun e => if e.id == i then { e with parentId := p } else e)
  { db with entities := es }

/-! ## Sorting (`ORDER BY`), kernel-reducible insertion sort -/

def insertLe {α : Type} (le : α → α → Bool) (a : α) : List α → List α
  | [] => [a]
  | b :: bs => if le a b then a :: b :: bs else b :: insertLe le a bs

def sortByLe {α : Type} (le : α → α → Bool) : List α → List α
  | [] => []
  | a :: as => insertLe le a (sortByLe le as)

/-! ## Queries of `db.py` -/

/-- `COALESCE(json_extract(meta, '$.status'), 'open') != 'done'` is false, i.e.
the task counts as done. -/
def isDone (m : Meta) : Bool := m.status == some "done"

/-- The row filter of `_get_list_id`: non-deleted list with `LOWER`-equal
title. -/
def listPred (uid : Nat) (name : String) (e : Entity) : Bool :=
  e.userId == uid && e.type == "list" &&
    sqlLower e.title == sqlLower name && !e.meta.deleted

/-- `_get_list_id` of `db.py` (`LIMIT 1` over rowid order). -/
def _get_list_id (db : DB) (uid : Nat) (name : String) : Option Nat :=
  (db.entities.find? (listPred uid name)).map (·.id)

/-- `find_list` of `db.py` — note: no deleted filter. -/
def find_list (db : DB) (uid : Nat) (name : String) : Option Entity :=
  db.entities.find? (fun e =>
    e.userId == uid && e.type == "list" && sqlLower e.title == sqlLower name)

/-- `_get_task_row` of `db.py`: first non-deleted task of the list with
`LOWER`-equal title. -/
def _get_task_row (db : DB) (uid listId : Nat) (title : String) : Option Entity :=
  db.entities.find? (fun e =>
    e.userId == uid && e.type == "task" && e.parentId == some listId &&
      sqlLower e.title == sqlLower title && !e.meta.deleted)

/-- `_list_active_tasks`: non-deleted, not done, ordered by `created_at`. -/
def _list_active_tasks (db : DB) (uid listId : Nat) : List Entity :=
  sortByLe (fun a b => a.createdAt ≤ b.createdAt)
    (db.entities.filter (fun e =>
      e.userId == uid && e.type == "task" && e.parentId == some listId &&
        !e.meta.deleted && !(isDone e.meta)))

/-- `_list_restorable_tasks`: deleted, done, or archived (no `ORDER BY`). -/
def _list_restorable_tasks (db : DB) (uid listId : Nat) : List Entity :=
  db.entities.filter (fun e =>
    e.userId == uid && e.type == "task" && e.parentId == some listId &&
      (e.meta.deleted || isDone e.meta || e.meta.archived))

/-- `get_all_lists`: titles of non-deleted lists, `ORDER BY title ASC`. -/
def get_all_lists (db : DB) (uid : Nat) : List String :=
  sortByLe (fun a b => decide (a ≤ b))
    ((db.entities.filter (fun e =>
        e.userId == uid && e.type == "list" && !e.meta.deleted)).map (·.title))

/-! ## Fuzzy resolver (`_score_candidates`, `_select_candidate`) -/

/-- The `(id, title, meta)` triples handed to the resolver. -/
abbrev Cand := Nat × String × Meta

/-- Python's tuple ordering on the sort keys
`(-overlap, edit_distance, len(title), id)`; the id (first component of the
candidate tuple) is the final tie-break, and ids are distinct. -/
def scoreKeyLt (a b : Int × Nat × Nat × Nat) : Bool :=
  decide (a.1 < b.1 ∨ (a.1 = b.1 ∧ (a.2.1 < b.2.1 ∨ (a.2.1 = b.2.1 ∧
    (a.2.2.1 < b.2.2.1 ∨ (a.2.2.1 = b.2.2.1 ∧ a.2.2.2 < b.2.2.2))))))

/-- `scored.sort(); scored[0]` — the (unique) minimal element; ties keep the
earlier element, matching a stable sort. -/
def minByKey {α K : Type} (lt : K → K → Bool) : List (K × α) → Option (K × α)
  | [] => none
  | kc :: rest =>
    (rest.foldl (fun best x => if lt x.1 best.1 then x else best) kc) |> some

/-- `_score_candidates` of `db.py`. -/
def _score_candidates (patternTokens : List String) (cleanedPattern : String)
    (candidates : List Cand) : Option Cand :=
  let ptSet := patternTokens.dedup
  let cleanedLower := pyLower cleanedPattern
  let scored := candidates.filterMap (fun cand =>
    let titleLower := pyLower cand.2.1
    let tokens := (_tokenize cand.2.1).dedup
    let overlap := if !ptSet.isEmpty then
        (ptSet.filter (fun t => tokens.contains t)).length else 0
    let sm0 := if !ptSet.isEmpty then
        ptSet.any (fun tok =>
          decide (tok.length > 2) && isSubstrL tok.toList titleLower.toList)
      else false
    let sm1 := if cleanedLower ≠ "" &&
        isSubstrL cleanedLower.toList titleLower.toList then true else sm0
    let sm := if ptSet.isEmpty && cleanedLower ≠ "" then
        isSubstrL cleanedLower.toList titleLower.toList else sm1
    if !ptSet.isEmpty && overlap == 0 && !sm then none
    else
      let dist := if cleanedLower ≠ "" then
          levenshtein titleLower.toList cleanedLower.toList else 0
      some ((-(overlap : Int), dist, titleLower.length, cand.1), cand))
  match minByKey scoreKeyLt scored with
  | some (_, best) => some best
  | none =>
    if cleanedLower ≠ "" then
      candidates.find? (fun cand =>
        let titleLower := pyLower cand.2.1
        isSubstrL cleanedLower.toList titleLower.toList ||
          isSubstrL titleLower.toList cleanedLower.toList)
    else none

/-- `_select_candidate` of `db.py`: case-insensitive exact title match wins,
otherwise `_score_candidates`. -/
def _select_candidate (pattern : String) (candidates : List Cand) : Option Cand :=
  if pattern = "" then none
  else
    let cleaned := cleanPattern pattern
    if cleaned = "" then none
    else
      let lowered := pyLower cleaned
      match candidates.find? (fun c => pyLower (pyStrip c.2.1) == lowered) with
      | some c => some c
      | none => _score_candidates (_tokenize pattern) cleaned candidates

/-- The candidate rows scanned by `_find_semantic_duplicate`. -/
def fsdCandidates (db : DB) (uid : Nat) (entityType : String)
    (parentId : Option Nat) : List Entity :=
  db.entities.filter (fun e =>
    e.userId == uid && e.type == entityType && !e.meta.deleted &&
      match parentId with
      | none => true
      | some p => e.parentId == some p)

/-- The best-match accumulator step of `_find_semantic_duplicate`: keep the
strictly better above-threshold score. -/
def fsdStep (threshold : ℚ) (cleaned : String)
    (best : Option (Nat × String × ℚ)) (e : Entity) :
    Option (Nat × String × ℚ) :=
  let score := semantic_similarity cleaned e.title
  match best with
  | none => if threshold < score then some (e.id, e.title, score) else none
  | some b =>
    if threshold < score ∧ b.2.2 < score then some (e.id, e.title, score)
    else some b

def _find_semantic_duplicate (db : DB) (uid : Nat) (title entityType : String)
    (parentId : Option Nat := none) (threshold : ℚ := mkRat 3 4) :
    Option (Nat × String × ℚ) :=
  let cleaned := pyStrip title
  if cleaned = "" then none
  else (fsdCandidates db uid entityType parentId).foldl (fsdStep threshold cleaned) none

/-! ## Creation operations -/

/-- `CreationResult` / `_creation_result` of `db.py`; every field defaults to
the `_creation_result` default. -/
structure CreationResult where
  id : Option Nat := none
  title : Option String := none
  created : Bool := false
  restored : Bool := false
  duplicate_detected : Bool := false
  duplicate_id : Option Nat := none
  duplicate_title : Option String := none
  similarity : Option ℚ := none
  auto_use : Bool := false
  missing_parent : Bool := false
deriving DecidableEq, Repr

/-- `create_list` of `db.py`.  The `uniqueConflict` branch is the
`sqlite3.IntegrityError` handler (it can never fire for lists, whose
`parent_id` is `NULL`). -/
def create_list (db : DB) (uid : Nat) (listName : String)
    (force : Bool := false) : CreationResult × DB :=
  let cleanedName := pyStrip listName
  if cleanedName = "" then (({ title := some listName } : CreationResult), db)
  else
    match (if force then none else _find_semantic_duplicate db uid cleanedName "list") with
    | some (dupId, dupTitle, score) =>
      (({ id := some dupId, title := some dupTitle, duplicate_detected := true,
          duplicate_id := some dupId, duplicate_title := some dupTitle,
          similarity := some score,
          auto_use := decide (mkRat 17 20 ≤ score) } : CreationResult), db)
    | none =>
      if uniqueConflict db uid "list" cleanedName none then
        match _get_list_id db uid cleanedName with
        | some existingId =>
          (({ id := some existingId, title := some cleanedName,
              duplicate_detected := true, duplicate_id := some existingId,
              duplicate_title := some cleanedName, similarity := some 1,
              auto_use := true } : CreationResult), db)
        | none => (({ title := some cleanedName } : CreationResult), db)
      else
        let (listId, db') := db.insertRow uid "list" cleanedName none {}
        (({ id := some listId, title := some cleanedName,
            created := true } : CreationResult), db')

/-- `add_task` of `db.py`. -/
def add_task (db : DB) (uid : Nat) (listName title : String)
    (force : Bool := false) : CreationResult × DB :=
  match find_list db uid listName with
  | none => (({ title := some title, missing_parent := true } : CreationResult), db)
  | some listRow =>
    let listId := listRow.id
    match _get_task_row db uid listId title with
    | some existing =>
      let m := existing.meta
      if m.deleted || isDone m then
        -- pop "deleted"; pop "status" when it is "done"; then UPDATE
        let m' : Meta := { m with deleted := false, status := if isDone m then none else m.status }
        (({ id := some existing.id, title := some existing.title,
            restored := true } : CreationResult), db.setMeta existing.id m')
      else
        (({ id := some existing.id, title := some existing.title,
            duplicate_detected := true, duplicate_id := some existing.id,
            duplicate_title := some existing.title, similarity := some 1,
            auto_use := true } : CreationResult), db)
    | none =>
      match (if force then none
             else _find_semantic_duplicate db uid title "task" (some listId)) with
      | some (dupId, dupTitle, score) =>
        (({ id := some dupId, title := some dupTitle, duplicate_detected := true,
            duplicate_id := some dupId, duplicate_title := some dupTitle,
            similarity := some score,
            auto_use := decide (mkRat 17 20 ≤ score) } : CreationResult), db)
      | none =>
        if uniqueConflict db uid "task" title (some listId) then
          -- sqlite3.IntegrityError on INSERT
          (({ title := some title } : CreationResult), db)
        else
          let (taskId, db') := db.insertRow uid "task" title (some listId) {}
          (({ id := some taskId, title := some title,
              created := true } : CreationResult), db')

/-! ## Rename / update operations -/

/-- `rename_list` of `db.py`. -/
def rename_list (db : DB) (uid : Nat) (oldName newName : String) : Nat × DB :=
  match _get_list_id db uid oldName with
  | none => (0, db)
  | some listId =>
    match _get_list_id db uid newName with
    | some _ => (0, db)
    | none => (1, db.setTitle listId newName)

/-- `update_task` of `db.py`. -/
def update_task (db : DB) (uid : Nat) (listName oldTitle newTitle : String) :
    Nat × DB :=
  match _get_list_id db uid listName with
  | none => (0, db)
  | some listId =>
    match _get_task_row db uid listId oldTitle with
    | none => (0, db)
    | some taskRow =>
      match _get_task_row db uid listId newTitle with
      | some _ => (0, db)
      | none => (1, db.setTitle taskRow.id newTitle)

/-- `update_task_by_index` of `db.py` (1-based index into the active tasks). -/
def update_task_by_index (db : DB) (uid : Nat) (listName : String)
    (index : Int) (newTitle : String) : (Nat × Option String) × DB :=
  match _get_list_id db uid listName with
  | none => ((0, none), db)
  | some listId =>
    let tasks := _list_active_tasks db uid listId
    if tasks.isEmpty ∨ index < 1 ∨ (tasks.length : Int) < index then
      ((0, none), db)
    else
      match tasks[(index - 1).toNat]? with
      | none => ((0, none), db)
      | some chosen =>
        match _get_task_row db uid listId newTitle with
        | some _ => ((0, none), db)
        | none => ((1, some chosen.title), db.setTitle chosen.id newTitle)

/-- `get_list_tasks` of `db.py`: 1-based ordinal plus title pairs. -/
def get_list_tasks (db : DB) (uid : Nat) (listName : String) :
    List (Nat × String) :=
  match _get_list_id db uid listName with
  | none => []
  | some listId =>
    ((_list_active_tasks db uid listId).enum.map
      (fun p => (p.1 + 1, p.2.title)))

/-! ## Done / delete / restore operations -/

/-- `mark_task_done` of `db.py`. -/
def mark_task_done (db : DB) (uid : Nat) (listName taskTitle : String) :
    Nat × DB :=
  match _get_list_id db uid listName with
  | none => (0, db)
  | some listId =>
    let candidates := (_list_active_tasks db uid listId).map
      (fun r => ((r.id, r.title, r.meta) : Cand))
    if candidates.isEmpty then (0, db)
    else
      match _select_candidate taskTitle candidates with
      | none => (0, db)
      | some (cid, _, m) =>
        (1, db.setMeta cid { m with status := some "done", deleted := false })

/-- `mark_task_done_fuzzy` of `db.py`. -/
def mark_task_done_fuzzy (db : DB) (uid : Nat) (listName pattern : String) :
    (Nat × Option String) × DB :=
  if pattern = "" then ((0, none), db)
  else
    let cleaned := cleanPattern pattern
    if cleaned = "" then ((0, none), db)
    else
      match _get_list_id db uid listName with
      | none => ((0, none), db)
      | some listId =>
        let candidates := (_list_active_tasks db uid listId).map
          (fun r => ((r.id, r.title, r.meta) : Cand))
        if candidates.isEmpty then ((0, none), db)
        else
          match _score_candidates (_tokenize pattern) cleaned candidates with
          | none => ((0, none), db)
          | some (cid, ctitle, m) =>
            ((1, some ctitle),
             db.setMeta cid { m with status := some "done", deleted := false })

/-- The row lookup of `delete_list`: exact (case-sensitive) title, no deleted
filter, `LIMIT 1`. -/
def deleteListPred (uid : Nat) (listName : String) (e : Entity) : Bool :=
  e.userId == uid && e.type == "list" && e.title == listName

/-- The archival update `delete_list` applies to each child task row:
`meta.pop("deleted"); meta["archived"] = True;` and, when the list name is
non-empty, `meta["archived_from"] = list_name`. -/
def archiveMeta (listName : String) (m : Meta) : Meta :=
  { m with deleted := false, archived := true, archivedFrom := if listName ≠ "" then some listName else m.archivedFrom }

/-- `delete_list` of `db.py`: soft-delete the list row, then archive every
child task row (whatever its lifecycle). -/
def delete_list (db : DB) (uid : Nat) (listName : String) : Nat × DB :=
  match db.entities.find? (deleteListPred uid listName) with
  | none => (0, db)
  | some row =>
    let db1 := db.setMeta row.id { row.meta with deleted := true }
    let taskRows := db1.entities.filter (fun e =>
      e.userId == uid && e.type == "task" && e.parentId == some row.id)
    (1, taskRows.foldl (fun d t => d.setMeta t.id (archiveMeta listName t.meta)) db1)

/-- `delete_task` of `db.py`: a task that is already done is left unchanged
and reported as not found (`0`). -/
def delete_task (db : DB) (uid : Nat) (listName taskTitle : String) : Nat × DB :=
  match _get_list_id db uid listName with
  | none => (0, db)
  | some listId =>
    match _get_task_row db uid listId taskTitle with
    | none => (0, db)
    | some taskRow =>
      if isDone taskRow.meta then (0, db)
      else (1, db.setMeta taskRow.id { taskRow.meta with deleted := true })

/-- `_suggest_new_list_for_restore` of `db.py` (query only, no mutation). -/
def _suggest_new_list_for_restore (db : DB) (uid : Nat)
    (listName taskTitle : String) : Option String :=
  if db.entities.any (fun e =>
      e.userId == uid && e.type == "task" &&
        sqlLower e.title == sqlLower taskTitle && e.meta.archived &&
        (match e.meta.archivedFrom with
         | none => true
         | some af => sqlLower af == sqlLower listName)) then
    some ("Список «" ++ listName ++ "» удалён. Создай новый список и скажи, куда вернуть задачу «" ++ taskTitle ++ "».")
  else none

/-- The un-archival update shared by `restore_task` / `restore_task_fuzzy`:
pop `deleted`, `archived`, `archived_from`, and `status` when it is done. -/
def restoreMeta (m : Meta) : Meta :=
  { m with deleted := false, archived := false, archivedFrom := none, status := if isDone m then none else m.status }

/-- Whether any of those pops changes the meta (the `changed` flag). -/
def restoreChanged (m : Meta) : Bool :=
  m.deleted || m.archived || m.archivedFrom.isSome || isDone m

/-- `restore_task` of `db.py`. -/
def restore_task (db : DB) (uid : Nat) (listName taskTitle : String) :
    (Nat × Option String × Option String) × DB :=
  match _get_list_id db uid listName with
  | none =>
    ((0, none, _suggest_new_list_for_restore db uid listName taskTitle), db)
  | some listId =>
    let candidates := (_list_restorable_tasks db uid listId).map
      (fun r => ((r.id, r.title, r.meta) : Cand))
    if candidates.isEmpty then ((0, none, none), db)
    else
      match _select_candidate taskTitle candidates with
      | none => ((0, none, none), db)
      | some (cid, ctitle, m) =>
        if restoreChanged m then
          ((1, some ctitle, none), db.setMeta cid (restoreMeta m))
        else ((0, none, none), db)

/-- `restore_task_fuzzy` of `db.py`. -/
def restore_task_fuzzy (db : DB) (uid : Nat) (listName pattern : String) :
    (Nat × Option String × Option String) × DB :=
  if pattern = "" then ((0, none, none), db)
  else
    let cleaned := cleanPattern pattern
    if cleaned = "" then ((0, none, none), db)
    else
      match _get_list_id db uid listName with
      | none =>
        ((0, none, _suggest_new_list_for_restore db uid listName pattern), db)
      | some listId =>
        let candidates := (_list_restorable_tasks db uid listId).map
          (fun r => ((r.id, r.title, r.meta) : Cand))
        if candidates.isEmpty then ((0, none, none), db)
        else
          match _score_candidates (_tokenize pattern) cleaned candidates with
          | none => ((0, none, none), db)
          | some (cid, ctitle, m) =>
            if restoreChanged m then
              ((1, some ctitle, none), db.setMeta cid (restoreMeta m))
            else ((0, none, none), db)

/-- `delete_task_fuzzy` of `db.py`: plain minimal Levenshtein distance (first
minimum, like Python's `min`) with cut-off `len(cleaned) // 2` — it does NOT
use `_score_candidates`. -/
def delete_task_fuzzy (db : DB) (uid : Nat) (listName pattern : String) :
    (Nat × Option String) × DB :=
  if pattern = "" then ((0, none), db)
  else
    let cleaned := cleanPattern pattern
    if cleaned = "" then ((0, none), db)
    else
      match _get_list_id db uid listName with
      | none => ((0, none), db)
      | some listId =>
        let candidates := (_list_active_tasks db uid listId).map
          (fun r => ((r.id, r.title, r.meta) : Cand))
        let dist := fun (c : Cand) =>
          levenshtein (pyLower c.2.1).toList (pyLower cleaned).toList
        match candidates with
        | [] => ((0, none), db)
        | c0 :: rest =>
          let target := rest.foldl
            (fun best x => if dist x < dist best then x else best) c0
          if cleaned.length / 2 < dist target then ((0, none), db)
          else
            ((1, some target.2.1),
             db.setMeta target.1 { target.2.2 with deleted := true })

/-- `delete_task_by_index` of `db.py`. -/
def delete_task_by_index (db : DB) (uid : Nat) (listName : String)
    (index : Int) : (Nat × Option String) × DB :=
  match _get_list_id db uid listName with
  | none => ((0, none), db)
  | some listId =>
    let tasks := _list_active_tasks db uid listId
    if tasks.isEmpty ∨ index < 1 ∨ (tasks.length : Int) < index then
      ((0, none), db)
    else
      match tasks[(index - 1).toNat]? with
      | none => ((0, none), db)
      | some chosen =>
        ((1, some chosen.title),
         db.setMeta chosen.id { chosen.meta with deleted := true })

/-! ## History views and search -/

/-- The `WHERE` filter of `get_completed_tasks`: done tasks (by `status` or by
a `done` flag) that are not deleted. -/
def completedBase (db : DB) (uid : Nat) : List Entity :=
  db.entities.filter (fun e =>
    e.userId == uid && e.type == "task" &&
      (isDone e.meta || e.meta.doneFlag) && !e.meta.deleted)

/-- The display column of `get_completed_tasks`: archived (or orphaned) rows
render as `Архив • <source>`. -/
def completedDisplay (db : DB) (e : Entity) : String :=
  let l := db.entities.find? (fun x => some x.id == e.parentId && x.type == "list")
  let archivedFlag := e.meta.archived || l.isNone ||
    (match l with | some x => x.meta.deleted | none => false)
  let src : Option String :=
    if archivedFlag then
      match e.meta.archivedFrom with
      | some s => some s
      | none => l.map (·.title)
    else l.map (·.title)
  if archivedFlag then
    match src with
    | some s => if s ≠ "" then "Архив • " ++ s else "Архив"
    | none => "Архив"
  else
    match src with
    | some s => if s ≠ "" then s else "Архив"
    | none => "Архив"

/-- `get_completed_tasks` of `db.py`: `(display title, task title)` pairs,
ordered by `COALESCE(completed_at, created_at) DESC`, truncated to `limit`. -/
def get_completed_tasks (db : DB) (uid : Nat) (limit : Nat := 15) :
    List (String × String) :=
  ((sortByLe (fun a b =>
      (b.meta.completedAt.getD b.createdAt) ≤ (a.meta.completedAt.getD a.createdAt))
    (completedBase db uid)).take limit).map
    (fun e => (completedDisplay db e, e.title))

/-- The `WHERE` filter of `get_deleted_tasks`. -/
def deletedBase (db : DB) (uid : Nat) : List Entity :=
  db.entities.filter (fun e =>
    e.userId == uid && e.type == "task" && e.meta.deleted)

/-- `get_deleted_tasks` of `db.py`: `(parent list title, task title)` pairs
(`LEFT JOIN`, so the list title is optional), newest first. -/
def get_deleted_tasks (db : DB) (uid : Nat) (limit : Nat := 15) :
    List (Option String × String) :=
  ((sortByLe (fun a b => b.createdAt ≤ a.createdAt)
      (deletedBase db uid)).take limit).map
    (fun e =>
      ((db.entities.find? (fun x => some x.id == e.parentId)).map (·.title),
       e.title))

/-- `search_tasks` of `db.py`.  Note the SQL conjunct
`json_extract(e.meta, '$.status') != 'done'`: for a task whose meta has no
`status` key the extract is `NULL`, the comparison is `NULL`, and the row is
filtered out. -/
def search_tasks (db : DB) (uid : Nat) (pattern : String) :
    List (String × String) :=
  let cleaned := cleanPattern pattern
  if cleaned = "" then []
  else
    (sortByLe (fun a b => a.createdAt ≤ b.createdAt)
        (db.entities.filter (fun e =>
          e.userId == uid && e.type == "task" &&
            isSubstrL (sqlLower cleaned).toList (sqlLower e.title).toList &&
            !e.meta.deleted &&
            (match e.meta.status with
             | some s => s != "done"
             | none => false)))).filterMap
      (fun e =>
        match db.entities.find? (fun l => some l.id == e.parentId) with
        | some l => some (l.title, e.title)
        | none => none)

/-! ## Move and profile operations -/

/-- `move_entity` of `db.py`: fails with not-found (`0`) when the target list
does not resolve; it never creates the target list itself. -/
def move_entity (db : DB) (uid : Nat) (entityType title fromList toList : String) :
    Nat × DB :=
  match _get_list_id db uid fromList with
  | none => (0, db)
  | some fromId =>
    match _get_list_id db uid toList with
    | none => (0, db)
    | some toId =>
      match _get_task_row db uid fromId title with
      | none => (0, db)
      | some taskRow => (1, db.setParent taskRow.id (some toId))

/-- Outcome of the `move_entity` intent handler of `main.py`. -/
inductive MoveReply where
  | fromListMissing
  | moved (taskTitle targetList : String)
  | notMoved (taskTitle : String)
deriving DecidableEq, Repr

/-- The non-fuzzy `move_entity` intent handler of `main.py` (lines 1886–1975):
when the target list is absent it first calls `create_list`, and on a
detected duplicate redirects the move to the duplicate's title. -/
def move_entity_handler (db : DB) (uid : Nat)
    (entityType title fromList toList : String) : MoveReply × DB :=
  match find_list db uid fromList with
  | none => (.fromListMissing, db)
  | some _ =>
    let td : String × DB :=
      match find_list db uid toList with
      | some _ => (toList, db)
      | none =>
        let (res, db') := create_list db uid toList
        if res.duplicate_detected then
          (match res.duplicate_title with
           | some t => if t = "" then toList else t
           | none => toList, db')
        else (toList, db')
    let (updated, db2) := move_entity td.2 uid entityType title fromList td.1
    if updated = 1 then (.moved title td.1, db2) else (.notMoved title, db2)

/-- `update_user_profile` of `db.py`: `INSERT OR REPLACE` of a
`user_profile` row keyed by title `user_<uid>`; its `parent_id` is `NULL`,
so the unique constraint can never make the `REPLACE` fire. -/
def update_user_profile (db : DB) (uid : Nat) (city profession : Option String) :
    Nat × DB :=
  (1, (db.insertOrReplaceRow uid "user_profile" ("user_" ++ toString uid) none
        { city := city, profession := profession }).2)

/-- `get_user_profile` of `db.py`: `LIMIT 1` with no `ORDER BY`, i.e. the
lowest-rowid matching row (full scan and the covering unique index both walk
rows of an equal key in rowid order). -/
def get_user_profile (db : DB) (uid : Nat) :
    Option (Option String × Option String) :=
  match db.entities.find? (fun e =>
      e.userId == uid && e.type == "user_profile" &&
        e.title == "user_" ++ toString uid) with
  | some e => some (e.meta.city, e.meta.profession)
  | none => none

/-! ## The state-changing operations, as one sum type (claim C5) -/

/-- Every mutating operation of `db.py` (each one that executes an `INSERT`
or `UPDATE`), with its arguments. -/
inductive Op where
  | createList (uid : Nat) (name : String) (force : Bool)
  | addTask (uid : Nat) (list title : String) (force : Bool)
  | renameList (uid : Nat) (oldName newName : String)
  | updateTask (uid : Nat) (list oldTitle newTitle : String)
  | updateTaskByIndex (uid : Nat) (list : String) (index : Int) (newTitle : String)
  | markTaskDone (uid : Nat) (list title : String)
  | markTaskDoneFuzzy (uid : Nat) (list pattern : String)
  | deleteList (uid : Nat) (name : String)
  | deleteTask (uid : Nat) (list title : String)
  | deleteTaskFuzzy (uid : Nat) (list pattern : String)
  | deleteTaskByIndex (uid : Nat) (list : String) (index : Int)
  | restoreTask (uid : Nat) (list title : String)
  | restoreTaskFuzzy (uid : Nat) (list pattern : String)
  | moveEntity (uid : Nat) (entityType title fromList toList : String)
  | updateUserProfile (uid : Nat) (city profession : Option String)

/-- The state reached by running one operation. -/
def applyOp (db : DB) : Op → DB
  | .createList uid name force => (create_list db uid name force).2
  | .addTask uid list title force => (add_task db uid list title force).2
  | .renameList uid oldName newName => (rename_list db uid oldName newName).2
  | .updateTask uid list oldTitle newTitle =>
      (update_task db uid list oldTitle newTitle).2
  | .updateTaskByIndex uid list index newTitle =>
      (update_task_by_index db uid list index newTitle).2
  | .markTaskDone uid list title => (mark_task_done db uid list title).2
  | .markTaskDoneFuzzy uid list pattern =>
      (mark_task_done_fuzzy db uid list pattern).2
  | .deleteList uid name => (delete_list db uid name).2
  | .deleteTask uid list title => (delete_task db uid list title).2
  | .deleteTaskFuzzy uid list pattern => (delete_task_fuzzy db uid list pattern).2
  | .deleteTaskByIndex uid list index =>
      (delete_task_by_index db uid list index).2
  | .restoreTask uid list title => (restore_task db uid list title).2
  | .restoreTaskFuzzy uid list pattern =>
      (restore_task_fuzzy db uid list pattern).2
  | .moveEntity uid entityType title fromList toList =>
      (move_entity db uid entityType title fromList toList).2
  | .updateUserProfile uid city profession =>
      (update_user_profile db uid city profession).2

/-! ## Concrete scenarios used by counterexamples and witnesses -/

/-- C1 scenario: list "Groceries" with one active task "Milk". -/
def groceriesDB : DB := (add_task (create_list DB.empty 1 "Groceries").2 1 "Groceries" "Milk").2

/-- C1 scenario after `delete_list("Groceries")`. -/
def groceriesDeletedDB : DB := (delete_list groceriesDB 1 "Groceries").2

/-- C2 scenario: list "List" whose task "Milk" has been soft-deleted. -/
def deletedMilkDB : DB :=
  (delete_task (add_task (create_list DB.empty 1 "List").2 1 "List" "Milk").2 1 "List" "Milk").2

/-- C4 scenario: list "Дела" with one active task "Хлеб". -/
def delaDB : DB := (add_task (create_list DB.empty 1 "Дела").2 1 "Дела" "Хлеб").2

/-- C4 scenario after `mark_task_done`. -/
def delaDoneDB : DB := (mark_task_done delaDB 1 "Дела" "Хлеб").2

/-- C7/C8 scenario: list "Покупки" with the active tasks "Купить хлеб" and
"Купить молоко" (ids 2 and 3). -/
def pokupkiDB : DB :=
  (add_task (add_task (create_list DB.empty 1 "Покупки").2
      1 "Покупки" "Купить хлеб").2 1 "Покупки" "Купить молоко").2

/-- C9 scenario: lists "Дела" (id 1, with the task "Хлеб", id 2) and
"Покупки" (id 3). -/
def moveSceneDB : DB :=
  (create_list (add_task (create_list DB.empty 1 "Дела").2 1 "Дела" "Хлеб").2 1 "Покупки").2

/-- C10 scenario: two consecutive profile writes for owner 7. -/
def profileTwiceDB : DB :=
  (update_user_profile (update_user_profile DB.empty 7 (some "A") none).2 7 (some "B") none).2

/-! ## Closed counterexample / evaluation theorems -/

/-- C1 counterexample: "Milk" is an Active child task of "Groceries";
`delete_list` succeeds, the list disappears from `get_all_lists` and
`get_list_tasks`, but the archived task appears in NEITHER
`get_completed_tasks` NOR `get_deleted_tasks` (with the default limit 15),
refuting the claim that every formerly Active/Done child shows up in those
history views. -/
theorem C1_counterexample :
    groceriesDB.entities.any (fun e =>
      e.id == 2 && e.type == "task" && e.title == "Milk" &&
      e.parentId == some 1 && !e.meta.deleted && !(isDone e.meta)) = true ∧
    (delete_list groceriesDB 1 "Groceries").1 = 1 ∧
    groceriesDeletedDB.entities.any (fun e =>
      e.id == 2 && e.meta.archived && !e.meta.deleted &&
      e.meta.archivedFrom == some "Groceries") = true ∧
    get_all_lists groceriesDeletedDB 1 = [] ∧
    get_list_tasks groceriesDeletedDB 1 "Groceries" = [] ∧
    get_completed_tasks groceriesDeletedDB 1 15 = [] ∧
    get_deleted_tasks groceriesDeletedDB 1 15 = [] := by decide

/-- C2: the list "List" stores a Deleted task "Milk" (same normalized title);
`add_task` does NOT revive it: `_get_task_row` filters deleted rows out, the
`INSERT` hits the unique constraint, and the call returns the empty
`IntegrityError` result (`restored = false`, `created = false`, no id) with
the store unchanged — the revive-the-deleted branch of `add_task` is dead
code. -/
theorem C2_add_task_deleted_not_revived :
    deletedMilkDB.entities.any (fun e =>
      e.id == 2 && e.type == "task" && e.title == "Milk" &&
      e.parentId == some 1 && e.meta.deleted) = true ∧
    add_task deletedMilkDB 1 "List" "Milk" =
      (({ title := some "Milk" } : CreationResult), deletedMilkDB) := by decide

/-- C3 counterexample: for the stopword-only name "и" the semantic token set
is empty, so the duplicate check scores 0, and because a list row's
`parent_id` is `NULL` the SQL unique constraint never fires: the second
`create_list("и")` inserts a second list entity and returns `created = true`
with a fresh id, refuting idempotence for all names. -/
theorem C3_counterexample :
    _semantic_tokenize "и" = [] ∧
    (create_list DB.empty 1 "и").1 =
      ({ id := some 1, title := some "и", created := true } : CreationResult) ∧
    (create_list (create_list DB.empty 1 "и").2 1 "и").1 =
      ({ id := some 2, title := some "и", created := true } : CreationResult) ∧
    ((create_list (create_list DB.empty 1 "и").2 1 "и").2.entities.filter
      (fun e => e.type == "list" && e.title == "и")).length = 2 := by decide

/-- C7 counterexample: with active tasks ["Купить хлеб", "Купить молоко"] and
pattern "хлеб", `delete_task_fuzzy` returns not-found and mutates nothing —
it does not target "Купить хлеб" as the Fuzzy-Resolver-based operations do. -/
theorem C7_counterexample :
    get_list_tasks pokupkiDB 1 "Покупки" =
      [(1, "Купить хлеб"), (2, "Купить молоко")] ∧
    delete_task_fuzzy pokupkiDB 1 "Покупки" "хлеб" = ((0, none), pokupkiDB) := by decide

/-- C7 amended: `delete_task_fuzzy` ranks candidates by plain Levenshtein
distance with cut-off `len(cleaned) / 2` instead of reusing
`_score_candidates`; on the quoted input the resolver (used by
`mark_task_done_fuzzy` and `restore_task_fuzzy`) selects "Купить хлеб",
while the fuzzy delete's minimal distance 7 exceeds the cut-off 2, so it
reports not-found. -/
theorem C7_fuzzy_delete_uses_plain_distance :
    (mark_task_done_fuzzy pokupkiDB 1 "Покупки" "хлеб").1 = (1, some "Купить хлеб") ∧
    _score_candidates (_tokenize "хлеб") (cleanPattern "хлеб")
        ((_list_active_tasks pokupkiDB 1 1).map (fun r => ((r.id, r.title, r.meta) : Cand))) =
      some ((2, "Купить хлеб", ({} : Meta)) : Cand) ∧
    levenshtein (pyLower "Купить хлеб").toList (pyLower (cleanPattern "хлеб")).toList = 7 ∧
    (cleanPattern "хлеб").length / 2 = 2 ∧
    delete_task_fuzzy pokupkiDB 1 "Покупки" "хлеб" = ((0, none), pokupkiDB) := by decide

/-- C8: the freshly added task "Купить хлеб" is Active (its meta has no
`status` key), its title contains the cleaned pattern case-insensitively, and
yet `search_tasks` returns nothing: the SQL conjunct
`json_extract(e.meta, '$.status') != 'done'` evaluates to `NULL` for a task
without a `status` key and filters the row out. -/
theorem C8_search_misses_fresh_tasks :
    pokupkiDB.entities.any (fun e =>
      e.id == 2 && e.type == "task" && e.title == "Купить хлеб" &&
      !e.meta.deleted && e.meta.status == none) = true ∧
    isSubstrL (sqlLower (cleanPattern "хлеб")).toList
      (sqlLower "Купить хлеб").toList = true ∧
    search_tasks pokupkiDB 1 "хлеб" = [] := by decide

/-- C9 counterexample: no list named "покупка" exists, yet the move handler
does not create it — `create_list` reports the semantically similar existing
list "Покупки" (score 1) as a duplicate and the task is moved there instead;
the repository-level `move_entity` alone simply fails with not-found. -/
theorem C9_counterexample :
    find_list moveSceneDB 1 "покупка" = none ∧
    move_entity moveSceneDB 1 "task" "Хлеб" "Дела" "покупка" = (0, moveSceneDB) ∧
    (move_entity_handler moveSceneDB 1 "task" "Хлеб" "Дела" "покупка").1 =
      MoveReply.moved "Хлеб" "Покупки" ∧
    ((move_entity_handler moveSceneDB 1 "task" "Хлеб" "Дела" "покупка").2.entities.all
      (fun e => e.title != "покупка")) = true ∧
    ((move_entity_handler moveSceneDB 1 "task" "Хлеб" "Дела" "покупка").2.entities.any
      (fun e => e.id == 2 && e.parentId == some 3)) = true := by decide

/-- C10: two consecutive `update_user_profile` calls for owner 7 leave TWO
stored profile rows (the `INSERT OR REPLACE` can never replace, because the
profile row's `parent_id` is `NULL` and SQLite unique constraints treat
`NULL` as distinct), and `get_user_profile` — `LIMIT 1` in rowid order —
returns the FIRST write ("A"), not the last one ("B"). -/
theorem C10_profile_reads_first_write :
    get_user_profile profileTwiceDB 7 = some (some "A", none) ∧
    (profileTwiceDB.entities.filter (fun e =>
      e.userId == 7 && e.type == "user_profile")).length = 2 := by decide

/-! ## General lemmas about the duplicate scan -/

theorem fsd_fold_above (th : ℚ) (cl : String) :
    ∀ (l : List Entity) (acc : Option (Nat × String × ℚ)),
      (∀ b, acc = some b → th < b.2.2) →
      ∀ r, l.foldl (fsdStep th cl) acc = some r → th < r.2.2 := by
  intro l
  induction l with
  | nil => intro acc hacc r hr; exact hacc r hr
  | cons e es ih =>
    intro acc hacc r hr
    refine ih (fsdStep th cl acc e) ?_ r hr
    intro b hb
    unfold fsdStep at hb
    cases acc with
    | none =>
      simp only at hb
      split at hb
      · cases hb; assumption
      · cases hb
    | some b0 =>
      simp only at hb
      split at hb
      · next hcond => cases hb; exact hcond.1
      · cases hb; exact hacc _ rfl

theorem fsd_fold_from_some (th : ℚ) (cl : String) :
    ∀ (l : List Entity) (b : Nat × String × ℚ),
      ∃ c, l.foldl (fsdStep th cl) (some b) = some c := by
  intro l
  induction l with
  | nil => intro b; exact ⟨b, rfl⟩
  | cons e es ih =>
    intro b
    have : ∃ c, fsdStep th cl (some b) e = some c := by
      unfold fsdStep
      simp only
      split
      · exact ⟨_, rfl⟩
      · exact ⟨b, rfl⟩
    obtain ⟨c, hc⟩ := this
    obtain ⟨d, hd⟩ := ih c
    exact ⟨d, by simpa [hc] using hd⟩

theorem fsd_fold_none_iff (th : ℚ) (cl : String) :
    ∀ (l : List Entity),
      l.foldl (fsdStep th cl) none = none ↔
        ∀ e ∈ l, ¬ th < semantic_similarity cl e.title := by
  intro l
  induction l with
  | nil => simp
  | cons e es ih =>
    simp only [List.foldl_cons]
    by_cases h : th < semantic_similarity cl e.title
    · have hstep : fsdStep th cl none e =
          some (e.id, e.title, semantic_similarity cl e.title) := by
        unfold fsdStep; simp [h]
      rw [hstep]
      obtain ⟨c, hc⟩ := fsd_fold_from_some th cl es
        (e.id, e.title, semantic_similarity cl e.title)
      simp only [hc]
      constructor
      · intro habs; cases habs
      · intro hall; exact absurd h (hall e (by simp))
    · have hstep : fsdStep th cl none e = none := by
        unfold fsdStep; simp [h]
      rw [hstep, ih]
      constructor
      · intro hall x hx
        rcases List.mem_cons.mp hx with rfl | hx'
        · exact h
        · exact hall x hx'
      · intro hall x hx; exact hall x (List.mem_cons_of_mem _ hx)

theorem fsd_fold_last (th : ℚ) (cl : String) (l : List Entity) (e : Entity)
    (hl : ∀ x ∈ l, ¬ th < semantic_similarity cl x.title)
    (he : th < semantic_similarity cl e.title) :
    (l ++ [e]).foldl (fsdStep th cl) none =
      some (e.id, e.title, semantic_similarity cl e.title) := by
  rw [List.foldl_append]
  rw [(fsd_fold_none_iff th cl l).mpr hl]
  simp only [List.foldl_cons, List.foldl_nil]
  unfold fsdStep
  simp [he]

/-- The score of a title against itself is 1 whenever its semantic token set
is non-empty. -/
theorem semantic_similarity_self (s : String)
    (h : _semantic_tokenize s ≠ []) : semantic_similarity s s = 1 := by
  unfold semantic_similarity
  simp only [Finset.union_self, Finset.inter_self]
  have hc : (_semantic_tokenize s).toFinset.card ≠ 0 := by
    simp only [ne_eq, Finset.card_eq_zero, List.toFinset_eq_empty_iff]
    exact h
  rw [if_neg hc, Rat.mkRat_eq_div]
  push_cast
  exact div_self (by exact_mod_cast hc)

/-! ## Claim theorems: C4 and C6 -/

/-- C4: deleting a task whose lifecycle is Done returns the not-found outcome
`0` and leaves the store untouched (never an error); in particular
`mark_task_done` immediately followed by `delete_task` on the same task
yields not-found for the delete. -/
theorem C4_delete_done_task_not_found :
    (∀ (db : DB) (uid : Nat) (listName taskTitle : String) (lid : Nat)
        (t : Entity),
      _get_list_id db uid listName = some lid →
      _get_task_row db uid lid taskTitle = some t →
      isDone t.meta = true →
      delete_task db uid listName taskTitle = (0, db)) ∧
    (mark_task_done delaDB 1 "Дела" "Хлеб").1 = 1 ∧
    delete_task delaDoneDB 1 "Дела" "Хлеб" = (0, delaDoneDB) := by
  refine ⟨?_, by decide, by decide⟩
  intro db uid listName taskTitle lid t h1 h2 h3
  simp [delete_task, h1, h2, h3]

/-- C4 witness: the general part applied to the concrete post-`mark_task_done`
store. -/
theorem C4_witness : delete_task delaDoneDB 1 "Дела" "Хлеб" = (0, delaDoneDB) := by
  refine C4_delete_done_task_not_found.1 delaDoneDB 1 "Дела" "Хлеб" 1
    { id := 2, userId := 1, type := "task", title := "Хлеб", content := none,
      parentId := some 1, createdAt := 2, meta := { status := some "done" } }
    ?_ ?_ ?_
  · decide
  · decide
  · decide

/-- C6: the similarity score is exactly the Jaccard index of the normalized
token sets (0 when both are empty); `_find_semantic_duplicate` only surfaces
candidates scoring strictly above 3/4; and a duplicate `CreationResult` of
`create_list` has `auto_use = true` exactly when the similarity is ≥ 17/20. -/
theorem C6_similarity_jaccard_thresholds :
    (∀ a b : String,
      semantic_similarity a b =
        jaccardIndex (_semantic_tokenize a).toFinset (_semantic_tokenize b).toFinset) ∧
    (∀ (db : DB) (uid : Nat) (title ty : String) (pid : Option Nat)
        (r : Nat × String × ℚ),
      _find_semantic_duplicate db uid title ty pid (mkRat 3 4) = some r →
      mkRat 3 4 < r.2.2) ∧
    (∀ (db : DB) (uid : Nat) (name : String) (force : Bool)
        (r : CreationResult) (db' : DB),
      create_list db uid name force = (r, db') → r.duplicate_detected = true →
      ∃ s, r.similarity = some s ∧ r.auto_use = decide (mkRat 17 20 ≤ s)) := by
  refine ⟨?_, ?_, ?_⟩
  · intro a b
    simp only [semantic_similarity, jaccardIndex]
    by_cases h : (_semantic_tokenize a).toFinset ∪ (_semantic_tokenize b).toFinset = ∅
    · simp [h]
    · have hc : ((_semantic_tokenize a).toFinset ∪ (_semantic_tokenize b).toFinset).card ≠ 0 := by
        simpa [Finset.card_eq_zero] using h
      rw [if_neg hc, if_neg h, Rat.mkRat_eq_div]
      push_cast
      ring
  · intro db uid title ty pid r h
    unfold _find_semantic_duplicate at h
    simp only at h
    split at h
    · cases h
    · exact fsd_fold_above _ _ _ none (by intro b hb; cases hb) r h
  · intro db uid name force r db' h hdup
    unfold create_list at h
    simp only at h
    split at h
    · -- empty cleaned name: not a duplicate result
      have hr := congrArg Prod.fst h
      simp only at hr
      rw [← hr] at hdup
      simp at hdup
    · split at h
      · -- semantic duplicate surfaced
        next dupId dupTitle score heq =>
        have hr := congrArg Prod.fst h
        simp only at hr
        refine ⟨score, ?_, ?_⟩ <;> rw [← hr]
      · split at h
        · -- IntegrityError branch
          split at h
          · have hr := congrArg Prod.fst h
            simp only at hr
            refine ⟨1, ?_, ?_⟩ <;> rw [← hr]
            have : decide (mkRat 17 20 ≤ (1 : ℚ)) = true := by
              simp only [decide_eq_true_eq]
              rw [Rat.mkRat_eq_div]
              norm_num
            rw [this]
          · have hr := congrArg Prod.fst h
            simp only at hr
            rw [← hr] at hdup
            simp at hdup
        · -- fresh insert: not a duplicate result
          have hr := congrArg Prod.fst h
          simp only at hr
          rw [← hr] at hdup
          simp at hdup

/-- C6 witness: the three parts instantiated on the "Покупки"/"покупка"
scene. -/
theorem C6_witness :
    (semantic_similarity "Покупки" "покупка" =
      jaccardIndex (_semantic_tokenize "Покупки").toFinset
        (_semantic_tokenize "покупка").toFinset) ∧
    mkRat 3 4 < (1 : ℚ) ∧
    (∃ s, (create_list moveSceneDB 1 "покупка" false).1.similarity = some s ∧
      (create_list moveSceneDB 1 "покупка" false).1.auto_use =
        decide (mkRat 17 20 ≤ s)) := by
  refine ⟨C6_similarity_jaccard_thresholds.1 "Покупки" "покупка", ?_, ?_⟩
  · have h : _find_semantic_duplicate moveSceneDB 1 "покупка" "list" none (mkRat 3 4) =
        some (3, "Покупки", 1) := by decide
    exact C6_similarity_jaccard_thresholds.2.1 moveSceneDB 1 "покупка" "list" none _ h
  · exact C6_similarity_jaccard_thresholds.2.2 moveSceneDB 1 "покупка" false
      (create_list moveSceneDB 1 "покупка" false).1
      (create_list moveSceneDB 1 "покупка" false).2 rfl (by decide)

/-! ## Claim C3 (amended): idempotence of `create_list` for names whose
semantic token set is non-empty -/

theorem dropWhile_dropWhile {α : Type} (p : α → Bool) (l : List α) :
    (l.dropWhile p).dropWhile p = l.dropWhile p := by
  induction l with
  | nil => rfl
  | cons a t ih =>
    by_cases h : p a
    · rw [List.dropWhile_cons, if_pos h, ih]
    · rw [List.dropWhile_cons, if_neg h, List.dropWhile_cons, if_neg h]

theorem dropWhile_of_head? {α : Type} (p : α → Bool) (l : List α) (a : α)
    (hh : l.head? = some a) (ha : p a = false) : l.dropWhile p = l := by
  cases l with
  | nil => cases hh
  | cons b t =>
    have : b = a := by simpa using hh
    subst this
    rw [List.dropWhile_cons, if_neg (by simp [ha])]

theorem getLast?_dropWhile {α : Type} (p : α → Bool) (l : List α) :
    l.dropWhile p = [] ∨ (l.dropWhile p).getLast? = l.getLast? := by
  induction l with
  | nil => exact Or.inl rfl
  | cons a t ih =>
    by_cases h : p a
    · rw [List.dropWhile_cons, if_pos h]
      rcases ih with h0 | h1
      · exact Or.inl h0
      · cases t with
        | nil =>
          cases h2 : ([] : List α).dropWhile p
          · exact Or.inl (by simpa using h2)
          · exact Or.inl (by simpa using h2)
        | cons b t' => exact Or.inr (by rw [h1, List.getLast?_cons_cons])
    · exact Or.inr (by rw [List.dropWhile_cons, if_neg h])

theorem head?_dropWhile_false {α : Type} (p : α → Bool) (l : List α) (a : α)
    (h : (l.dropWhile p).head? = some a) : p a = false := by
  induction l with
  | nil => cases h
  | cons b t ih =>
    by_cases hb : p b
    · rw [List.dropWhile_cons, if_pos hb] at h; exact ih h
    · rw [List.dropWhile_cons, if_neg hb] at h
      have : b = a := by simpa using h
      subst this
      simpa using hb

theorem stripL_idem (p : Char → Bool) (cs : List Char) :
    ((((((cs.dropWhile p).reverse.dropWhile p).reverse).dropWhile p).reverse).dropWhile p).reverse
      = ((cs.dropWhile p).reverse.dropWhile p).reverse := by
  set u := cs.dropWhile p with hu
  set w := u.reverse.dropWhile p with hwdef
  have h1 : w.reverse.dropWhile p = w.reverse := by
    cases hh : w.reverse.head? with
    | none =>
      have : w.reverse = [] := by
        cases hrev : w.reverse
        · rfl
        · rw [hrev] at hh; cases hh
      rw [this]; rfl
    | some a =>
      have hwl : w.getLast? = some a := by rw [← List.head?_reverse]; exact hh
      have huh : u.head? = some a := by
        rcases getLast?_dropWhile p u.reverse with h0 | hlast
        · rw [← hwdef] at h0
          rw [h0] at hh
          cases hh
        · rw [← hwdef] at hlast
          rw [hlast, List.getLast?_reverse] at hwl
          exact hwl
      have ha : p a = false := head?_dropWhile_false p cs a (by rw [← hu]; exact huh)
      exact dropWhile_of_head? p _ a hh ha
  rw [h1, List.reverse_reverse]
  have h2 : w.dropWhile p = w := by
    rw [hwdef]
    exact dropWhile_dropWhile p u.reverse
  rw [h2]

theorem pyStrip_idem (s : String) : pyStrip (pyStrip s) = pyStrip s :=
  congrArg String.mk (stripL_idem isSpaceChar s.toList)

theorem find?_append_some {α : Type} (p : α → Bool) {l : List α} {a : α}
    (h : l.find? p = some a) (m : List α) : (l ++ m).find? p = some a := by
  rw [List.find?_append, h]; rfl

theorem find?_append_none {α : Type} (p : α → Bool) {l : List α}
    (h : l.find? p = none) (m : List α) : (l ++ m).find? p = m.find? p := by
  rw [List.find?_append, h]; rfl

/-- C3 amended: when the (stripped) name has a non-empty semantic token set
and the first `create_list` actually created the list, the second call with
the same name returns the same entity id with `created = false`
(`duplicate_detected = true`, similarity 1) and inserts nothing. -/
theorem C3_create_list_idempotent_for_token_names :
    ∀ (db : DB) (uid : Nat) (name : String) (r1 : CreationResult) (db1 : DB),
      create_list db uid name = (r1, db1) →
      r1.created = true →
      _semantic_tokenize (pyStrip name) ≠ [] →
      (create_list db1 uid name).1.id = r1.id ∧
      (create_list db1 uid name).1.created = false ∧
      (create_list db1 uid name).1.duplicate_detected = true ∧
      (create_list db1 uid name).2 = db1 := by
  intro db uid name r1 db1 h hcreated htok
  have hc : pyStrip name ≠ "" := by
    intro habs
    rw [habs] at htok
    exact htok (by decide)
  -- analyse the first call
  cases hfsd0 : _find_semantic_duplicate db uid (pyStrip name) "list" none (mkRat 3 4) with
  | some d =>
    rw [create_list] at h
    simp only [if_neg hc, Bool.false_eq_true, if_false, hfsd0] at h
    obtain ⟨d1, d2, d3⟩ := d
    have hr := congrArg Prod.fst h
    simp only at hr
    rw [← hr] at hcreated
    simp at hcreated
  | none =>
    cases hconf : uniqueConflict db uid "list" (pyStrip name) none with
    | true =>
      rw [create_list] at h
      simp only [if_neg hc, Bool.false_eq_true, if_false, hfsd0, hconf, if_true] at h
      rcases hgl : _get_list_id db uid (pyStrip name) with _ | existingId <;>
        rw [hgl] at h <;>
        · have hr := congrArg Prod.fst h
          simp only at hr
          rw [← hr] at hcreated
          simp at hcreated
    | false =>
      rw [create_list] at h
      simp only [if_neg hc, Bool.false_eq_true, if_false, hfsd0, hconf,
        DB.insertRow] at h
      have hr := congrArg Prod.fst h
      have hdb := congrArg Prod.snd h
      simp only at hr hdb
      -- the inserted list row
      have hdb1 : db1.entities = db.entities ++
          [{ id := db.nextId, userId := uid, type := "list", title := pyStrip name,
             content := none, parentId := none, createdAt := db.nextId,
             meta := {} }] := by rw [← hdb]
      -- the duplicate scan of the second call finds exactly the new row
      have hcand : fsdCandidates db1 uid "list" none =
          fsdCandidates db uid "list" none ++
          [{ id := db.nextId, userId := uid, type := "list", title := pyStrip name,
             content := none, parentId := none, createdAt := db.nextId,
             meta := {} }] := by
        unfold fsdCandidates
        rw [hdb1, List.filter_append]
        simp
      have hprev : ∀ e ∈ fsdCandidates db uid "list" none,
          ¬ mkRat 3 4 < semantic_similarity (pyStrip name) e.title := by
        have h0 := hfsd0
        simp only [_find_semantic_duplicate] at h0
        rw [pyStrip_idem, if_neg hc] at h0
        exact (fsd_fold_none_iff _ _ _).mp h0
      have hself : semantic_similarity (pyStrip name) (pyStrip name) = 1 :=
        semantic_similarity_self _ htok
      have hlt : mkRat 3 4 < semantic_similarity (pyStrip name) (pyStrip name) := by
        rw [hself, Rat.mkRat_eq_div]
        norm_num
      have hfsd1 : _find_semantic_duplicate db1 uid (pyStrip name) "list" none
          (mkRat 3 4) = some (db.nextId, pyStrip name, 1) := by
        simp only [_find_semantic_duplicate]
        rw [pyStrip_idem, if_neg hc]
        rw [hcand]
        rw [fsd_fold_last (mkRat 3 4) (pyStrip name)
          (fsdCandidates db uid "list" none)
          { id := db.nextId, userId := uid, type := "list",
            title := pyStrip name, content := none, parentId := none,
            createdAt := db.nextId, meta := {} } hprev hlt]
        rw [hself]
      -- compute the second call
      have hsecond : create_list db1 uid name =
          (({ id := some db.nextId, title := some (pyStrip name),
              duplicate_detected := true, duplicate_id := some db.nextId,
              duplicate_title := some (pyStrip name), similarity := some 1,
              auto_use := decide (mkRat 17 20 ≤ (1 : ℚ)) } : CreationResult),
           db1) := by
        simp only [create_list, Bool.false_eq_true, if_false, if_neg hc, hfsd1]
      rw [hsecond]
      refine ⟨?_, rfl, rfl, rfl⟩
      rw [← hr]

/-- C3 witness: the amended theorem applied to "Хлеб" on the empty store. -/
theorem C3_witness :
    (create_list (create_list DB.empty 1 "Хлеб").2 1 "Хлеб").1.id =
      (create_list DB.empty 1 "Хлеб").1.id ∧
    (create_list (create_list DB.empty 1 "Хлеб").2 1 "Хлеб").1.created = false ∧
    (create_list (create_list DB.empty 1 "Хлеб").2 1 "Хлеб").1.duplicate_detected = true ∧
    (create_list (create_list DB.empty 1 "Хлеб").2 1 "Хлеб").2 =
      (create_list DB.empty 1 "Хлеб").2 :=
  C3_create_list_idempotent_for_token_names DB.empty 1 "Хлеб"
    (create_list DB.empty 1 "Хлеб").1 (create_list DB.empty 1 "Хлеб").2
    rfl (by decide) (by decide)

/-! ## Claim C9 (amended): the move handler creates an absent target list
when no semantically similar list diverts it -/

/-- A row with a `NULL` `parent_id` never violates the unique constraint. -/
theorem uniqueConflict_parent_none (db : DB) (u : Nat) (ty t : String) :
    uniqueConflict db u ty t none = false := by
  unfold uniqueConflict
  rw [List.any_eq_false]
  intro e _
  unfold rowConflicts
  cases e.parentId <;> simp

/-- C9 amended: with the source list and task resolvable, a stripped non-empty
target name, no stored list named `toL`, and no semantically similar list
(score > 3/4), the `main.py` handler first creates `toL` and then reparents
the task into the fresh list — it does not fail with not-found.  (When a
semantically similar list exists, the task moves into that list instead and
`toL` is not created; the repository-level `move_entity` alone returns
not-found.) -/
theorem C9_move_handler_creates_absent_target :
    ∀ (db : DB) (uid : Nat) (ty title fromL toL : String) (fl taskRow : Entity),
      find_list db uid fromL = some fl →
      _get_list_id db uid fromL = some fl.id →
      _get_task_row db uid fl.id title = some taskRow →
      find_list db uid toL = none →
      pyStrip toL = toL →
      toL ≠ "" →
      _find_semantic_duplicate db uid toL "list" none (mkRat 3 4) = none →
      (∀ e ∈ db.entities, e.id < db.nextId) →
      (move_entity_handler db uid ty title fromL toL).1 =
        MoveReply.moved title toL ∧
      (∃ nl ∈ (move_entity_handler db uid ty title fromL toL).2.entities,
        nl.id = db.nextId ∧ nl.type = "list" ∧ nl.title = toL) ∧
      (∃ t' ∈ (move_entity_handler db uid ty title fromL toL).2.entities,
        t'.id = taskRow.id ∧ t'.title = taskRow.title ∧
          t'.parentId = some db.nextId) := by
  intro db uid ty title fromL toL fl taskRow hfrom hfid htask hto hstrip hne hnodup hwf
  have hc2 : pyStrip toL ≠ "" := by rw [hstrip]; exact hne
  have hconf := uniqueConflict_parent_none db uid "list" toL
  -- the created target list row
  have h1 : create_list db uid toL =
      (({ id := some db.nextId, title := some toL,
          created := true } : CreationResult),
       { entities := db.entities ++
           [{ id := db.nextId, userId := uid, type := "list", title := toL,
              content := none, parentId := none, createdAt := db.nextId,
              meta := {} }],
         nextId := db.nextId + 1 }) := by
    simp only [create_list, hstrip, if_neg hne, Bool.false_eq_true, if_false,
      hnodup, hconf, DB.insertRow]
  set newRow : Entity :=
    { id := db.nextId, userId := uid, type := "list", title := toL,
      content := none, parentId := none, createdAt := db.nextId, meta := {} }
    with hnew
  set db1 : DB :=
    { entities := db.entities ++ [newRow], nextId := db.nextId + 1 } with hdb1
  -- resolving the source list is unchanged by the append
  have hfid1 : _get_list_id db1 uid fromL = some fl.id := by
    unfold _get_list_id at hfid ⊢
    cases hfind : db.entities.find? (listPred uid fromL) with
    | none => rw [hfind] at hfid; cases hfid
    | some x =>
      rw [hfind] at hfid
      show ((db.entities ++ [newRow]).find? (listPred uid fromL)).map (·.id) = _
      rw [find?_append_some _ hfind]
      exact hfid
  -- the target list now resolves to the fresh row
  have hfindto : db.entities.find? (listPred uid toL) = none := by
    rw [List.find?_eq_none]
    intro e he hp
    have hnone := List.find?_eq_none.mp hto e he
    apply hnone
    unfold listPred at hp
    simp only [Bool.and_eq_true] at hp
    simp only [Bool.and_eq_true]
    exact ⟨⟨hp.1.1.1, hp.1.1.2⟩, hp.1.2⟩
  have hto1 : _get_list_id db1 uid toL = some db.nextId := by
    unfold _get_list_id
    show ((db.entities ++ [newRow]).find? (listPred uid toL)).map (·.id) = _
    rw [find?_append_none _ hfindto]
    simp [listPred, hnew]
  -- the task row is unchanged by the append
  have htask1 : _get_task_row db1 uid fl.id title = some taskRow := by
    unfold _get_task_row at htask ⊢
    show (db.entities ++ [newRow]).find? _ = _
    exact find?_append_some _ htask _
  have hmove : move_entity db1 uid ty title fromL toL =
      (1, db1.setParent taskRow.id (some db.nextId)) := by
    simp only [move_entity, hfid1, hto1, htask1]
  have hhandler : move_entity_handler db uid ty title fromL toL =
      (MoveReply.moved title toL, db1.setParent taskRow.id (some db.nextId)) := by
    simp only [move_entity_handler, hfrom, hto, h1, ← hdb1, Bool.false_eq_true,
      if_false, hmove]
    simp
  rw [hhandler]
  have htmem : taskRow ∈ db.entities := by
    unfold _get_task_row at htask
    exact List.mem_of_find?_eq_some htask
  have htid : taskRow.id < db.nextId := hwf taskRow htmem
  refine ⟨rfl, ?_, ?_⟩
  · refine ⟨newRow, ?_, rfl, rfl, rfl⟩
    have hmem1 : newRow ∈ db1.entities := by
      rw [hdb1]
      exact List.mem_append_right _ (by simp)
    have himg := List.mem_map_of_mem
      (fun e : Entity =>
        if e.id == taskRow.id then { e with parentId := some db.nextId } else e)
      hmem1
    have heq : (if newRow.id == taskRow.id then
        { newRow with parentId := some db.nextId } else newRow) = newRow := by
      rw [if_neg]
      simp only [beq_iff_eq, hnew]
      omega
    show newRow ∈ (db1.setParent taskRow.id (some db.nextId)).entities
    unfold DB.setParent
    simp only at himg
    rw [heq] at himg
    exact himg
  · refine ⟨{ taskRow with parentId := some db.nextId }, ?_, rfl, rfl, rfl⟩
    have hmem1 : taskRow ∈ db1.entities := by
      rw [hdb1]
      exact List.mem_append_left _ htmem
    have himg := List.mem_map_of_mem
      (fun e : Entity =>
        if e.id == taskRow.id then { e with parentId := some db.nextId } else e)
      hmem1
    have heq : (if taskRow.id == taskRow.id then
        { taskRow with parentId := some db.nextId } else taskRow) =
        { taskRow with parentId := some db.nextId } := by
      rw [if_pos (by simp)]
    show ({ taskRow with parentId := some db.nextId } : Entity) ∈
      (db1.setParent taskRow.id (some db.nextId)).entities
    unfold DB.setParent
    simp only at himg
    rw [heq] at himg
    exact himg

/-- C9 witness: moving "Хлеб" from "Дела" to the absent list "Новый". -/
theorem C9_witness :
    (move_entity_handler delaDB 1 "task" "Хлеб" "Дела" "Новый").1 =
      MoveReply.moved "Хлеб" "Новый" ∧
    (∃ nl ∈ (move_entity_handler delaDB 1 "task" "Хлеб" "Дела" "Новый").2.entities,
      nl.id = delaDB.nextId ∧ nl.type = "list" ∧ nl.title = "Новый") ∧
    (∃ t' ∈ (move_entity_handler delaDB 1 "task" "Хлеб" "Дела" "Новый").2.entities,
      t'.id = ({ id := 2, userId := 1, type := "task", title := "Хлеб",
                 content := none, parentId := some 1, createdAt := 2,
                 meta := {} } : Entity).id ∧
      t'.title = ({ id := 2, userId := 1, type := "task", title := "Хлеб",
                    content := none, parentId := some 1, createdAt := 2,
                    meta := {} } : Entity).title ∧
      t'.parentId = some delaDB.nextId) :=
  C9_move_handler_creates_absent_target delaDB 1 "task" "Хлеб" "Дела" "Новый"
    { id := 1, userId := 1, type := "list", title := "Дела", content := none,
      parentId := none, createdAt := 1, meta := {} }
    { id := 2, userId := 1, type := "task", title := "Хлеб", content := none,
      parentId := some 1, createdAt := 2, meta := {} }
    (by decide) (by decide) (by decide) (by decide) (by decide) (by decide)
    (by decide) (by decide)

/-! ## Claim C5: no operation ever removes a stored entity row -/

theorem ids_map_update (l : List Entity) (f : Entity → Entity)
    (hf : ∀ e, (f e).id = e.id) :
    (l.map f).map (·.id) = l.map (·.id) := by
  rw [List.map_map]
  exact List.map_congr_left (fun e _ => hf e)

theorem ids_setMeta (db : DB) (i : Nat) (m : Meta) :
    (db.setMeta i m).entities.map (·.id) = db.entities.map (·.id) := by
  unfold DB.setMeta
  exact ids_map_update _ _ (fun e => by by_cases h : e.id == i <;> simp [h])

theorem ids_setTitle (db : DB) (i : Nat) (t : String) :
    (db.setTitle i t).entities.map (·.id) = db.entities.map (·.id) := by
  unfold DB.setTitle
  exact ids_map_update _ _ (fun e => by by_cases h : e.id == i <;> simp [h])

theorem ids_setParent (db : DB) (i : Nat) (p : Option Nat) :
    (db.setParent i p).entities.map (·.id) = db.entities.map (·.id) := by
  unfold DB.setParent
  exact ids_map_update _ _ (fun e => by by_cases h : e.id == i <;> simp [h])

theorem ids_insertRow (db : DB) (u : Nat) (ty t : String) (p : Option Nat)
    (m : Meta) :
    (db.insertRow u ty t p m).2.entities.map (·.id) =
      db.entities.map (·.id) ++ [db.nextId] := by
  simp [DB.insertRow]

theorem ids_insertOrReplaceRow_none (db : DB) (u : Nat) (ty t : String)
    (m : Meta) :
    (db.insertOrReplaceRow u ty t none m).2.entities.map (·.id) =
      db.entities.map (·.id) ++ [db.nextId] := by
  unfold DB.insertOrReplaceRow
  have hkeep : db.entities.filter (fun e => !(rowConflicts e u ty t none)) =
      db.entities := by
    rw [List.filter_eq_self]
    intro e _
    unfold rowConflicts
    cases e.parentId <;> simp
  simp [hkeep]

theorem ids_foldl_setMeta (g : Entity → Meta) :
    ∀ (rows : List Entity) (d : DB),
      ((rows.foldl (fun d' t => d'.setMeta t.id (g t)) d).entities.map (·.id)) =
        d.entities.map (·.id) := by
  intro rows
  induction rows with
  | nil => intro d; rfl
  | cons t ts ih => intro d; rw [List.foldl_cons, ih, ids_setMeta]

/-- C5: every mutating operation of the engine preserves the previously
stored entity rows — the sequence of stored ids only ever grows by
appending; nothing is physically removed. -/
theorem C5_no_operation_removes_entities :
    ∀ (db : DB) (op : Op), ∃ tail,
      (applyOp db op).entities.map (·.id) = db.entities.map (·.id) ++ tail := by
  intro db op
  cases op with
  | createList uid name force =>
    show ∃ tail, (create_list db uid name force).2.entities.map (·.id) = _
    unfold create_list
    try dsimp only
    by_cases h1 : pyStrip name = ""
    · rw [if_pos h1]
      exact ⟨[], (List.append_nil _).symm⟩
    · rw [if_neg h1]
      cases hd : (if force = true then none
          else _find_semantic_duplicate db uid (pyStrip name) "list" none (mkRat 3 4)) with
      | some d =>
        try dsimp only
        obtain ⟨dupId, dupTitle, score⟩ := d
        exact ⟨[], (List.append_nil _).symm⟩
      | none =>
        by_cases h2 : uniqueConflict db uid "list" (pyStrip name) none = true
        · rw [if_pos h2]
          cases hg : _get_list_id db uid (pyStrip name) with
          | some i => exact ⟨[], (List.append_nil _).symm⟩
          | none => exact ⟨[], (List.append_nil _).symm⟩
        · rw [if_neg h2]
          exact ⟨[db.nextId], by simp [DB.insertRow]⟩
  | addTask uid list title force =>
    show ∃ tail, (add_task db uid list title force).2.entities.map (·.id) = _
    unfold add_task
    try dsimp only
    cases hl : find_list db uid list with
    | none => exact ⟨[], (List.append_nil _).symm⟩
    | some listRow =>
      try dsimp only
      cases ht : _get_task_row db uid listRow.id title with
      | some existing =>
        try dsimp only
        by_cases hch : (existing.meta.deleted || isDone existing.meta) = true
        · rw [if_pos hch]
          exact ⟨[], by rw [ids_setMeta, List.append_nil]⟩
        · rw [if_neg hch]
          exact ⟨[], (List.append_nil _).symm⟩
      | none =>
        cases hd : (if force = true then none
            else _find_semantic_duplicate db uid title "task" (some listRow.id) (mkRat 3 4)) with
        | some d =>
          try dsimp only
          obtain ⟨dupId, dupTitle, score⟩ := d
          exact ⟨[], (List.append_nil _).symm⟩
        | none =>
          by_cases h2 : uniqueConflict db uid "task" title (some listRow.id) = true
          · rw [if_pos h2]
            exact ⟨[], (List.append_nil _).symm⟩
          · rw [if_neg h2]
            exact ⟨[db.nextId], by simp [DB.insertRow]⟩
  | renameList uid oldName newName =>
    show ∃ tail, (rename_list db uid oldName newName).2.entities.map (·.id) = _
    unfold rename_list
    try dsimp only
    cases h1 : _get_list_id db uid oldName with
    | none => exact ⟨[], (List.append_nil _).symm⟩
    | some listId =>
      try dsimp only
      cases h2 : _get_list_id db uid newName with
      | some i => exact ⟨[], (List.append_nil _).symm⟩
      | none => exact ⟨[], by rw [ids_setTitle, List.append_nil]⟩
  | updateTask uid list oldTitle newTitle =>
    show ∃ tail, (update_task db uid list oldTitle newTitle).2.entities.map (·.id) = _
    unfold update_task
    try dsimp only
    cases h1 : _get_list_id db uid list with
    | none => exact ⟨[], (List.append_nil _).symm⟩
    | some listId =>
      try dsimp only
      cases h2 : _get_task_row db uid listId oldTitle with
      | none => exact ⟨[], (List.append_nil _).symm⟩
      | some taskRow =>
        try dsimp only
        cases h3 : _get_task_row db uid listId newTitle with
        | some i => exact ⟨[], (List.append_nil _).symm⟩
        | none => exact ⟨[], by rw [ids_setTitle, List.append_nil]⟩
  | updateTaskByIndex uid list index newTitle =>
    show ∃ tail, (update_task_by_index db uid list index newTitle).2.entities.map (·.id) = _
    unfold update_task_by_index
    try dsimp only
    cases h1 : _get_list_id db uid list with
    | none => exact ⟨[], (List.append_nil _).symm⟩
    | some listId =>
      try dsimp only
      by_cases h2 : (_list_active_tasks db uid listId).isEmpty = true ∨ index < 1 ∨
          ((_list_active_tasks db uid listId).length : Int) < index
      · rw [if_pos h2]
        exact ⟨[], (List.append_nil _).symm⟩
      · rw [if_neg h2]
        cases h3 : (_list_active_tasks db uid listId)[(index - 1).toNat]? with
        | none => exact ⟨[], (List.append_nil _).symm⟩
        | some chosen =>
          try dsimp only
          cases h4 : _get_task_row db uid listId newTitle with
          | some i => exact ⟨[], (List.append_nil _).symm⟩
          | none => exact ⟨[], by rw [ids_setTitle, List.append_nil]⟩
  | markTaskDone uid list title =>
    show ∃ tail, (mark_task_done db uid list title).2.entities.map (·.id) = _
    unfold mark_task_done
    try dsimp only
    cases h1 : _get_list_id db uid list with
    | none => exact ⟨[], (List.append_nil _).symm⟩
    | some listId =>
      try dsimp only
      by_cases h2 : ((_list_active_tasks db uid listId).map
          (fun r => ((r.id, r.title, r.meta) : Cand))).isEmpty = true
      · rw [if_pos h2]
        exact ⟨[], (List.append_nil _).symm⟩
      · rw [if_neg h2]
        cases h3 : _select_candidate title ((_list_active_tasks db uid listId).map
            (fun r => ((r.id, r.title, r.meta) : Cand))) with
        | none => exact ⟨[], (List.append_nil _).symm⟩
        | some c =>
          try dsimp only
          obtain ⟨cid, ctitle, m⟩ := c
          exact ⟨[], by rw [ids_setMeta, List.append_nil]⟩
  | markTaskDoneFuzzy uid list pattern =>
    show ∃ tail, (mark_task_done_fuzzy db uid list pattern).2.entities.map (·.id) = _
    unfold mark_task_done_fuzzy
    try dsimp only
    by_cases h0 : pattern = ""
    · rw [if_pos h0]
      exact ⟨[], (List.append_nil _).symm⟩
    · rw [if_neg h0]
      by_cases hcl : cleanPattern pattern = ""
      · rw [if_pos hcl]
        exact ⟨[], (List.append_nil _).symm⟩
      · rw [if_neg hcl]
        cases h1 : _get_list_id db uid list with
        | none => exact ⟨[], (List.append_nil _).symm⟩
        | some listId =>
          try dsimp only
          by_cases h2 : ((_list_active_tasks db uid listId).map
              (fun r => ((r.id, r.title, r.meta) : Cand))).isEmpty = true
          · rw [if_pos h2]
            exact ⟨[], (List.append_nil _).symm⟩
          · rw [if_neg h2]
            cases h3 : _score_candidates (_tokenize pattern) (cleanPattern pattern)
                ((_list_active_tasks db uid listId).map
                  (fun r => ((r.id, r.title, r.meta) : Cand))) with
            | none => exact ⟨[], (List.append_nil _).symm⟩
            | some c =>
              try dsimp only
              obtain ⟨cid, ctitle, m⟩ := c
              exact ⟨[], by rw [ids_setMeta, List.append_nil]⟩
  | deleteList uid name =>
    show ∃ tail, (delete_list db uid name).2.entities.map (·.id) = _
    unfold delete_list
    try dsimp only
    cases h1 : db.entities.find? (deleteListPred uid name) with
    | none => exact ⟨[], (List.append_nil _).symm⟩
    | some row =>
      try dsimp only
      refine ⟨[], ?_⟩
      rw [ids_foldl_setMeta (fun t => archiveMeta name t.meta), ids_setMeta,
        List.append_nil]
  | deleteTask uid list title =>
    show ∃ tail, (delete_task db uid list title).2.entities.map (·.id) = _
    unfold delete_task
    try dsimp only
    cases h1 : _get_list_id db uid list with
    | none => exact ⟨[], (List.append_nil _).symm⟩
    | some listId =>
      try dsimp only
      cases h2 : _get_task_row db uid listId title with
      | none => exact ⟨[], (List.append_nil _).symm⟩
      | some taskRow =>
        try dsimp only
        by_cases h3 : isDone taskRow.meta = true
        · rw [if_pos h3]
          exact ⟨[], (List.append_nil _).symm⟩
        · rw [if_neg h3]
          exact ⟨[], by rw [ids_setMeta, List.append_nil]⟩
  | deleteTaskFuzzy uid list pattern =>
    show ∃ tail, (delete_task_fuzzy db uid list pattern).2.entities.map (·.id) = _
    unfold delete_task_fuzzy
    try dsimp only
    by_cases h0 : pattern = ""
    · rw [if_pos h0]
      exact ⟨[], (List.append_nil _).symm⟩
    · rw [if_neg h0]
      by_cases hcl : cleanPattern pattern = ""
      · rw [if_pos hcl]
        exact ⟨[], (List.append_nil _).symm⟩
      · rw [if_neg hcl]
        cases h1 : _get_list_id db uid list with
        | none => exact ⟨[], (List.append_nil _).symm⟩
        | some listId =>
          try dsimp only
          cases h2 : (_list_active_tasks db uid listId).map
              (fun r => ((r.id, r.title, r.meta) : Cand)) with
          | nil => exact ⟨[], (List.append_nil _).symm⟩
          | cons c0 rest =>
            try dsimp only
            by_cases h3 : (cleanPattern pattern).length / 2 <
                levenshtein (pyLower (rest.foldl (fun best x =>
                  if levenshtein (pyLower x.2.1).toList
                      (pyLower (cleanPattern pattern)).toList <
                    levenshtein (pyLower best.2.1).toList
                      (pyLower (cleanPattern pattern)).toList
                  then x else best) c0).2.1).toList
                  (pyLower (cleanPattern pattern)).toList
            · rw [if_pos h3]
              exact ⟨[], (List.append_nil _).symm⟩
            · rw [if_neg h3]
              exact ⟨[], by rw [ids_setMeta, List.append_nil]⟩
  | deleteTaskByIndex uid list index =>
    show ∃ tail, (delete_task_by_index db uid list index).2.entities.map (·.id) = _
    unfold delete_task_by_index
    try dsimp only
    cases h1 : _get_list_id db uid list with
    | none => exact ⟨[], (List.append_nil _).symm⟩
    | some listId =>
      try dsimp only
      by_cases h2 : (_list_active_tasks db uid listId).isEmpty = true ∨ index < 1 ∨
          ((_list_active_tasks db uid listId).length : Int) < index
      · rw [if_pos h2]
        exact ⟨[], (List.append_nil _).symm⟩
      · rw [if_neg h2]
        cases h3 : (_list_active_tasks db uid listId)[(index - 1).toNat]? with
        | none => exact ⟨[], (List.append_nil _).symm⟩
        | some chosen => exact ⟨[], by rw [ids_setMeta, List.append_nil]⟩
  | restoreTask uid list title =>
    show ∃ tail, (restore_task db uid list title).2.entities.map (·.id) = _
    unfold restore_task
    try dsimp only
    cases h1 : _get_list_id db uid list with
    | none => exact ⟨[], (List.append_nil _).symm⟩
    | some listId =>
      try dsimp only
      by_cases h2 : ((_list_restorable_tasks db uid listId).map
          (fun r => ((r.id, r.title, r.meta) : Cand))).isEmpty = true
      · rw [if_pos h2]
        exact ⟨[], (List.append_nil _).symm⟩
      · rw [if_neg h2]
        cases h3 : _select_candidate title ((_list_restorable_tasks db uid listId).map
            (fun r => ((r.id, r.title, r.meta) : Cand))) with
        | none => exact ⟨[], (List.append_nil _).symm⟩
        | some c =>
          try dsimp only
          obtain ⟨cid, ctitle, m⟩ := c
          by_cases h4 : restoreChanged m = true
          · rw [if_pos h4]
            exact ⟨[], by rw [ids_setMeta, List.append_nil]⟩
          · rw [if_neg h4]
            exact ⟨[], (List.append_nil _).symm⟩
  | restoreTaskFuzzy uid list pattern =>
    show ∃ tail, (restore_task_fuzzy db uid list pattern).2.entities.map (·.id) = _
    unfold restore_task_fuzzy
    try dsimp only
    by_cases h0 : pattern = ""
    · rw [if_pos h0]
      exact ⟨[], (List.append_nil _).symm⟩
    · rw [if_neg h0]
      by_cases hcl : cleanPattern pattern = ""
      · rw [if_pos hcl]
        exact ⟨[], (List.append_nil _).symm⟩
      · rw [if_neg hcl]
        cases h1 : _get_list_id db uid list with
        | none => exact ⟨[], (List.append_nil _).symm⟩
        | some listId =>
          try dsimp only
          by_cases h2 : ((_list_restorable_tasks db uid listId).map
              (fun r => ((r.id, r.title, r.meta) : Cand))).isEmpty = true
          · rw [if_pos h2]
            exact ⟨[], (List.append_nil _).symm⟩
          · rw [if_neg h2]
            cases h3 : _score_candidates (_tokenize pattern) (cleanPattern pattern)
                ((_list_restorable_tasks db uid listId).map
                  (fun r => ((r.id, r.title, r.meta) : Cand))) with
            | none => exact ⟨[], (List.append_nil _).symm⟩
            | some c =>
              try dsimp only
              obtain ⟨cid, ctitle, m⟩ := c
              by_cases h4 : restoreChanged m = true
              · rw [if_pos h4]
                exact ⟨[], by rw [ids_setMeta, List.append_nil]⟩
              · rw [if_neg h4]
                exact ⟨[], (List.append_nil _).symm⟩
  | moveEntity uid entityType title fromList toList =>
    show ∃ tail, (move_entity db uid entityType title fromList toList).2.entities.map (·.id) = _
    unfold move_entity
    try dsimp only
    cases h1 : _get_list_id db uid fromList with
    | none => exact ⟨[], (List.append_nil _).symm⟩
    | some fromId =>
      try dsimp only
      cases h2 : _get_list_id db uid toList with
      | none => exact ⟨[], (List.append_nil _).symm⟩
      | some toId =>
        try dsimp only
        cases h3 : _get_task_row db uid fromId title with
        | none => exact ⟨[], (List.append_nil _).symm⟩
        | some taskRow => exact ⟨[], by rw [ids_setParent, List.append_nil]⟩
  | updateUserProfile uid city profession =>
    show ∃ tail, (update_user_profile db uid city profession).2.entities.map (·.id) = _
    unfold update_user_profile
    try dsimp only
    exact ⟨[db.nextId], by rw [ids_insertOrReplaceRow_none]⟩

/-! ## Claim C1 (amended): what `delete_list` does to the views -/

theorem mem_insertLe {α : Type} (le : α → α → Bool) (x a : α) :
    ∀ (l : List α), a ∈ insertLe le x l ↔ a = x ∨ a ∈ l := by
  intro l
  induction l with
  | nil => simp [insertLe]
  | cons c cs ih =>
    unfold insertLe
    by_cases h : le x c
    · rw [if_pos h]
      simp
    · rw [if_neg h]
      rw [List.mem_cons, ih, List.mem_cons]
      tauto

theorem mem_sortByLe {α : Type} (le : α → α → Bool) (a : α) :
    ∀ (l : List α), a ∈ sortByLe le l ↔ a ∈ l := by
  intro l
  induction l with
  | nil => simp [sortByLe]
  | cons b bs ih =>
    unfold sortByLe
    rw [mem_insertLe]
    simp [ih]

theorem mem_setMeta_self {db : DB} {e : Entity} (he : e ∈ db.entities) (m : Meta) :
    { e with meta := m } ∈ (db.setMeta e.id m).entities := by
  unfold DB.setMeta
  have h := List.mem_map_of_mem
    (fun x : Entity => if x.id == e.id then { x with meta := m } else x) he
  simpa using h

theorem mem_setMeta_of_ne {db : DB} {e : Entity} (he : e ∈ db.entities)
    {i : Nat} (hne : e.id ≠ i) (m : Meta) : e ∈ (db.setMeta i m).entities := by
  unfold DB.setMeta
  have h := List.mem_map_of_mem
    (fun x : Entity => if x.id == i then { x with meta := m } else x) he
  simpa [hne] using h

theorem setMeta_shape {db : DB} {i : Nat} {m : Meta} {e' : Entity}
    (h : e' ∈ (db.setMeta i m).entities) :
    ∃ e ∈ db.entities, e'.id = e.id ∧ e'.userId = e.userId ∧ e'.type = e.type ∧
      e'.title = e.title ∧ e'.parentId = e.parentId ∧
      e'.createdAt = e.createdAt := by
  unfold DB.setMeta at h
  obtain ⟨e, he, heq⟩ := List.mem_map.mp h
  refine ⟨e, he, ?_⟩
  by_cases hc : e.id == i
  · rw [if_pos hc] at heq
    rw [← heq]
    exact ⟨rfl, rfl, rfl, rfl, rfl, rfl⟩
  · rw [if_neg hc] at heq
    rw [← heq]
    exact ⟨rfl, rfl, rfl, rfl, rfl, rfl⟩

theorem fold_setMeta_mem_of_ne (g : Entity → Meta) :
    ∀ (rows : List Entity) (d : DB) (e : Entity),
      e ∈ d.entities → (∀ t ∈ rows, t.id ≠ e.id) →
      e ∈ ((rows.foldl (fun d' t => d'.setMeta t.id (g t)) d).entities) := by
  intro rows
  induction rows with
  | nil => intro d e he _; exact he
  | cons t ts ih =>
    intro d e he hne
    rw [List.foldl_cons]
    refine ih _ e ?_ (fun x hx => hne x (List.mem_cons_of_mem _ hx))
    exact mem_setMeta_of_ne he (Ne.symm (hne t (by simp))) _

theorem fold_setMeta_shape (g : Entity → Meta) :
    ∀ (rows : List Entity) (d : DB) (e' : Entity),
      e' ∈ ((rows.foldl (fun d' t => d'.setMeta t.id (g t)) d).entities) →
      ∃ e ∈ d.entities, e'.id = e.id ∧ e'.userId = e.userId ∧ e'.type = e.type ∧
        e'.title = e.title ∧ e'.parentId = e.parentId ∧
        e'.createdAt = e.createdAt := by
  intro rows
  induction rows with
  | nil => intro d e' h; exact ⟨e', h, rfl, rfl, rfl, rfl, rfl, rfl⟩
  | cons t ts ih =>
    intro d e' h
    rw [List.foldl_cons] at h
    obtain ⟨e1, he1, h1⟩ := ih _ e' h
    obtain ⟨e0, he0, h0⟩ := setMeta_shape he1
    exact ⟨e0, he0, h1.1.trans h0.1, h1.2.1.trans h0.2.1,
      h1.2.2.1.trans h0.2.2.1, h1.2.2.2.1.trans h0.2.2.2.1,
      h1.2.2.2.2.1.trans h0.2.2.2.2.1, h1.2.2.2.2.2.trans h0.2.2.2.2.2⟩

theorem fold_setMeta_update (g : Entity → Meta) :
    ∀ (rows : List Entity) (d : DB),
      (∀ x ∈ rows, x ∈ d.entities) →
      (d.entities.map (·.id)).Nodup →
      (rows.map (·.id)).Nodup →
      ∀ t ∈ rows, { t with meta := g t } ∈
        ((rows.foldl (fun d' x => d'.setMeta x.id (g x)) d).entities) := by
  intro rows
  induction rows with
  | nil => intro d _ _ _ t ht; cases ht
  | cons r rs ih =>
    intro d hsub hnd hnr t ht
    have hhead : r.id ∉ rs.map (·.id) := by
      have h := hnr
      simp only [List.map_cons, List.nodup_cons] at h
      exact h.1
    rw [List.foldl_cons]
    rcases List.mem_cons.mp ht with rfl | hts
    · refine fold_setMeta_mem_of_ne g rs _ _
        (mem_setMeta_self (hsub t (by simp)) (g t)) ?_
      intro x hx heq
      exact hhead (heq ▸ List.mem_map_of_mem (·.id) hx)
    · refine ih (d.setMeta r.id (g r)) ?_ ?_ ?_ t hts
      · intro x hx
        refine mem_setMeta_of_ne (hsub x (List.mem_cons_of_mem _ hx)) ?_ _
        intro heq
        exact hhead (heq ▸ List.mem_map_of_mem (·.id) hx)
      · rw [ids_setMeta]; exact hnd
      · have h := hnr
        simp only [List.map_cons, List.nodup_cons] at h
        exact h.2

theorem eq_of_mem_ids_nodup {l : List Entity}
    (hnd : (l.map (·.id)).Nodup) {a b : Entity} (ha : a ∈ l) (hb : b ∈ l)
    (hid : a.id = b.id) : a = b :=
  List.inj_on_of_nodup_map hnd ha hb hid

theorem archiveMeta_deleted (n : String) (m : Meta) :
    (archiveMeta n m).deleted = false := rfl

theorem archiveMeta_archived (n : String) (m : Meta) :
    (archiveMeta n m).archived = true := rfl

theorem archiveMeta_status (n : String) (m : Meta) :
    (archiveMeta n m).status = m.status := rfl

theorem archiveMeta_doneFlag (n : String) (m : Meta) :
    (archiveMeta n m).doneFlag = m.doneFlag := rfl

theorem archiveMeta_archivedFrom {n : String} (hn : n ≠ "") (m : Meta) :
    (archiveMeta n m).archivedFrom = some n := by
  simp [archiveMeta, hn]

/-- C1 amended: `delete_list` hides the (unique) list named `L` — it is gone
from `get_all_lists` and `get_list_tasks(L)` is empty — and transitions every
child task (whatever its lifecycle) to `Archived{fromList := L}`, clearing
the `Deleted` flag and keeping the done status.  Afterwards a formerly-Done
child still appears among the `get_completed_tasks` rows, but a
formerly-Active child appears in NEITHER the `get_completed_tasks` NOR the
`get_deleted_tasks` history view. -/
theorem C1_delete_list_cascade :
    ∀ (db : DB) (uid : Nat) (listName : String) (r : Entity),
      (db.entities.map (·.id)).Nodup →
      db.entities.find? (deleteListPred uid listName) = some r →
      (∀ l ∈ db.entities, l.userId = uid → l.type = "list" →
        sqlLower l.title = sqlLower listName → l.id = r.id) →
      listName ≠ "" →
      (delete_list db uid listName).1 = 1 ∧
      get_list_tasks (delete_list db uid listName).2 uid listName = [] ∧
      listName ∉ get_all_lists (delete_list db uid listName).2 uid ∧
      (∀ t ∈ db.entities, t.userId = uid → t.type = "task" →
        t.parentId = some r.id →
        ∃ t' ∈ (delete_list db uid listName).2.entities,
          t'.id = t.id ∧ t'.title = t.title ∧ t'.parentId = t.parentId ∧
          t'.meta.deleted = false ∧ t'.meta.archived = true ∧
          t'.meta.archivedFrom = some listName ∧
          t'.meta.status = t.meta.status ∧
          (isDone t.meta = true →
            t' ∈ completedBase (delete_list db uid listName).2 uid) ∧
          (isDone t.meta = false → t.meta.doneFlag = false →
            ∀ e ∈ completedBase (delete_list db uid listName).2 uid,
              e.id ≠ t.id) ∧
          (∀ e ∈ deletedBase (delete_list db uid listName).2 uid,
            e.id ≠ t.id)) := by
  intro db uid listName r hnd hr hu hname
  have hrmem : r ∈ db.entities := List.mem_of_find?_eq_some hr
  have hrpred := List.find?_some hr
  unfold deleteListPred at hrpred
  simp only [Bool.and_eq_true, beq_iff_eq] at hrpred
  obtain ⟨⟨hruid, hrtype⟩, hrtitle⟩ := hrpred
  -- the three stages of delete_list
  set rMeta : Meta := { r.meta with deleted := true } with hrMeta
  set db1 : DB := db.setMeta r.id rMeta with hdb1
  set rows : List Entity := db1.entities.filter (fun e =>
    e.userId == uid && e.type == "task" && e.parentId == some r.id) with hrows
  set db2 : DB :=
    rows.foldl (fun d t => d.setMeta t.id (archiveMeta listName t.meta)) db1
    with hdb2
  have hdl : delete_list db uid listName = (1, db2) := by
    unfold delete_list
    rw [hr]
  -- bookkeeping: ids and nodup are preserved
  have hnd1 : (db1.entities.map (·.id)).Nodup := by
    rw [hdb1, ids_setMeta]; exact hnd
  have hnd2 : (db2.entities.map (·.id)).Nodup := by
    rw [hdb2, ids_foldl_setMeta (fun t => archiveMeta listName t.meta)]
    exact hnd1
  -- the soft-deleted list row
  have hr1 : ({ r with meta := rMeta } : Entity) ∈ db1.entities :=
    mem_setMeta_self hrmem rMeta
  have hrowid : ∀ x ∈ rows, x.id ≠ r.id := by
    intro x hx heq
    have hxmem : x ∈ db1.entities := List.mem_of_mem_filter hx
    have hxpred := List.of_mem_filter hx
    simp only [Bool.and_eq_true, beq_iff_eq] at hxpred
    have hxr : x = { r with meta := rMeta } :=
      eq_of_mem_ids_nodup hnd1 hxmem hr1 heq
    have htylist : x.type = "list" := by rw [hxr]; exact hrtype
    rw [hxpred.1.2] at htylist
    exact absurd htylist (by decide)
  have hr2 : ({ r with meta := rMeta } : Entity) ∈ db2.entities := by
    rw [hdb2]
    exact fold_setMeta_mem_of_ne _ rows db1 _ hr1 hrowid
  -- any row of db2 with id r.id is the soft-deleted list row
  have hrid2 : ∀ e ∈ db2.entities, e.id = r.id → e = { r with meta := rMeta } :=
    fun e he heq => eq_of_mem_ids_nodup hnd2 he hr2 heq
  -- any db2 row matching uid/list/title is the soft-deleted list row
  have hlistgone : ∀ e ∈ db2.entities, e.userId = uid → e.type = "list" →
      sqlLower e.title = sqlLower listName → e = { r with meta := rMeta } := by
    intro e he heuid hetype hetitle
    obtain ⟨e1, he1, h1⟩ := fold_setMeta_shape
      (fun t => archiveMeta listName t.meta) rows db1 e (hdb2 ▸ he)
    obtain ⟨e0, he0, h0⟩ := setMeta_shape (hdb1 ▸ he1)
    have heid : e.id = r.id := by
      have h := hu e0 he0
      rw [← h1.2.1.trans h0.2.1, ← h1.2.2.1.trans h0.2.2.1,
        ← h1.2.2.2.1.trans h0.2.2.2.1] at h
      rw [h1.1.trans h0.1]
      exact h heuid hetype hetitle
    exact hrid2 e he heid
  refine ⟨by rw [hdl], ?_, ?_, ?_⟩
  · -- get_list_tasks is empty
    have hgl : _get_list_id (delete_list db uid listName).2 uid listName = none := by
      rw [hdl]
      unfold _get_list_id
      rw [List.find?_eq_none.mpr]
      · rfl
      · intro e he hp
        unfold listPred at hp
        simp only [Bool.and_eq_true, beq_iff_eq, Bool.not_eq_eq_eq_not,
          Bool.not_true] at hp
        have he2 := hlistgone e he hp.1.1.1 hp.1.1.2 hp.1.2
        have hdel : e.meta.deleted = true := by rw [he2]
        rw [hp.2] at hdel
        cases hdel
    simp only [get_list_tasks, hgl]
  · -- the list title is gone from get_all_lists
    intro hmem
    rw [hdl, get_all_lists, mem_sortByLe] at hmem
    obtain ⟨e, he, hetitle⟩ := List.mem_map.mp hmem
    have hef := List.of_mem_filter he
    simp only [Bool.and_eq_true, beq_iff_eq, Bool.not_eq_eq_eq_not,
      Bool.not_true] at hef
    have he2 := hlistgone e (List.mem_of_mem_filter he) hef.1.1 hef.1.2
      (by rw [hetitle])
    have hdel : e.meta.deleted = true := by rw [he2]
    rw [hef.2] at hdel
    cases hdel
  · -- the cascade on child tasks
    intro t ht htu htt htp
    have htne : t.id ≠ r.id := by
      intro heq
      have hteq := eq_of_mem_ids_nodup hnd ht hrmem heq
      have h2 : t.type = "list" := by rw [hteq]; exact hrtype
      rw [htt] at h2
      exact absurd h2 (by decide)
    have ht1 : t ∈ db1.entities := hdb1 ▸ mem_setMeta_of_ne ht htne rMeta
    have htrows : t ∈ rows := by
      rw [hrows]
      refine List.mem_filter.mpr ⟨ht1, ?_⟩
      simp [htu, htt, htp]
    have ht2 : ({ t with meta := archiveMeta listName t.meta } : Entity) ∈
        db2.entities := by
      rw [hdb2]
      refine fold_setMeta_update (fun x => archiveMeta listName x.meta) rows db1
        ?_ hnd1 ?_ t htrows
      · intro x hx
        rw [hrows] at hx
        exact List.mem_of_mem_filter hx
      · rw [hrows]
        exact List.Sublist.nodup
          (List.Sublist.map (fun e : Entity => e.id)
            (List.filter_sublist db1.entities)) hnd1
    have htid2 : ∀ e ∈ db2.entities, e.id = t.id →
        e = { t with meta := archiveMeta listName t.meta } :=
      fun e he heq => eq_of_mem_ids_nodup hnd2 he ht2 heq
    rw [hdl]
    refine ⟨{ t with meta := archiveMeta listName t.meta }, ht2,
      rfl, rfl, rfl, archiveMeta_deleted _ _, archiveMeta_archived _ _,
      archiveMeta_archivedFrom hname _, archiveMeta_status _ _, ?_, ?_, ?_⟩
    · -- a done child stays in the completed rows
      intro hdone
      unfold completedBase
      refine List.mem_filter.mpr ⟨ht2, ?_⟩
      simp only [Bool.and_eq_true, Bool.or_eq_true, beq_iff_eq,
        Bool.not_eq_eq_eq_not, Bool.not_true]
      refine ⟨⟨⟨htu, htt⟩, Or.inl ?_⟩, archiveMeta_deleted _ _⟩
      show isDone (archiveMeta listName t.meta) = true
      rw [isDone, archiveMeta_status]
      exact hdone
    · -- an active child is in neither history base
      intro hnotdone hnoflag e he heq
      unfold completedBase at he
      have he2 := htid2 e (List.mem_of_mem_filter he) heq
      have hef := List.of_mem_filter he
      simp only [Bool.and_eq_true, Bool.or_eq_true] at hef
      rcases hef.1.2 with hcase | hcase
      · have hd : isDone e.meta = true := hcase
        rw [he2] at hd
        rw [show (({ t with meta := archiveMeta listName t.meta } : Entity)).meta
            = archiveMeta listName t.meta from rfl] at hd
        rw [isDone, archiveMeta_status] at hd
        rw [isDone] at hnotdone
        rw [hd] at hnotdone
        cases hnotdone
      · have hd : e.meta.doneFlag = true := hcase
        rw [he2] at hd
        rw [show (({ t with meta := archiveMeta listName t.meta } : Entity)).meta
            = archiveMeta listName t.meta from rfl] at hd
        rw [archiveMeta_doneFlag] at hd
        rw [hnoflag] at hd
        cases hd
    · intro e he heq
      unfold deletedBase at he
      have he2 := htid2 e (List.mem_of_mem_filter he) heq
      have hef := List.of_mem_filter he
      simp only [Bool.and_eq_true] at hef
      have hd : e.meta.deleted = true := hef.2
      rw [he2] at hd
      rw [show (({ t with meta := archiveMeta listName t.meta } : Entity)).meta
          = archiveMeta listName t.meta from rfl] at hd
      rw [archiveMeta_deleted] at hd
      cases hd

/-- C1 witness: the amended cascade theorem applied to the "Groceries"/"Milk"
scene. -/
theorem C1_witness :
    (delete_list groceriesDB 1 "Groceries").1 = 1 ∧
    get_list_tasks (delete_list groceriesDB 1 "Groceries").2 1 "Groceries" = [] ∧
    "Groceries" ∉ get_all_lists (delete_list groceriesDB 1 "Groceries").2 1 ∧
    (∃ t' ∈ (delete_list groceriesDB 1 "Groceries").2.entities,
      t'.id = 2 ∧ t'.title = "Milk" ∧ t'.parentId = some 1 ∧
      t'.meta.deleted = false ∧ t'.meta.archived = true ∧
      t'.meta.archivedFrom = some "Groceries") := by
  have h := C1_delete_list_cascade groceriesDB 1 "Groceries"
    { id := 1, userId := 1, type := "list", title := "Groceries",
      content := none, parentId := none, createdAt := 1, meta := {} }
    (by decide) (by decide) (by decide) (by decide)
  refine ⟨h.1, h.2.1, h.2.2.1, ?_⟩
  have h4 := h.2.2.2
    { id := 2, userId := 1, type := "task", title := "Milk", content := none,
      parentId := some 1, createdAt := 2, meta := {} }
    (by decide) rfl rfl (by decide)
  obtain ⟨t', ht', h1, h2, h3, h4a, h5, h6, -, -, -, -⟩ := h4
  exact ⟨t', ht', h1, h2, h3, h4a, h5, h6⟩

end Aura


example : Aura.pyLower "Купить Хлеб" = "купить хлеб" := by decide
example : Aura._tokenize "Купить хлеб!" = ["купить", "хлеб"] := by decide
example : Aura._semantic_tokenize "Покупки" = ["покуп"] := by decide
example : Aura._semantic_tokenize "покупка " = ["покуп"] := by decide
example : Aura._semantic_tokenize "и" = [] := by decide
example : Aura._semantic_tokenize "молоко" = ["молоко"] := by decide
example : Aura.semantic_similarity "Покупки" "покупка" = 1 := by decide
example : Aura.semantic_similarity "Купить молоко" "Купить хлеб" = mkRat 1 3 := by decide
example : Aura.levenshtein "купить хлеб".toList "хлеб".toList = 7 := by decide
example : Aura.levenshtein "kitten".toList "sitting".toList = 3 := by decide
example : Aura.cleanPattern " хлеб!!и… " = "хлеб и" := by decide
example : Aura.pyStrip "  Дела " = "Дела" := by decide
